import Mathlib

/-!
Verification development for the AI-powered call recorder backend.

The Python backend is shallowly embedded: pure text processing
(transcript sanitization, truncation) becomes functions on `List Char`
and `String`; the post-call processing pipeline becomes a function from
an explicit description of the collaborators' outcomes (which artifact
steps succeed, what the transcription returned) to the emitted events,
status writes and persisted records; numeric audio analysis is modelled
over `ℚ`.  External collaborators (librosa, the OpenAI client, MongoDB,
the CRM mock's random draw) are inputs of the model, as the code treats
them as black boxes.
-/

namespace CallRec

/-! ## Character classes and helpers for the regex model

The sanitizers in `transcript_sanitizer.py` and
`app/services/ai_service.py` use `re.sub` / `re.finditer` with a fixed
set of patterns.  Each pattern is embedded as a matcher
`Option Char → List Char → Option Nat`: given the character preceding
the current position (`none` at the start of the string, used for the
`\b` assertion) and the remaining text, it returns the length of the
match that Python's `re` engine would produce at this position, or
`none`.  ASCII semantics of `\w`, `\d`, `\s`, `[A-Z]`, `[a-z]` are
used; all inputs considered in the theorems below are ASCII. -/

/-- Python's `\w`: letters, digits and underscore. -/
def isWordChar (c : Char) : Bool := c.isAlphanum || c = '_'

/-- `\b` holds at the start of a match whose first character is a word
character iff the previous character is absent or not a word character. -/
def prevNonWord : Option Char → Bool
  | none => true
  | some c => !(isWordChar c)

/-- `\b` holds at the end of a match whose last character is a word
character iff the next character is absent or not a word character. -/
def nonWordAt : List Char → Bool
  | [] => true
  | c :: _ => !(isWordChar c)

/-- Length of the maximal digit run at the head of the list (`\d+` greedy). -/
def digitRun (l : List Char) : Nat := (l.takeWhile Char.isDigit).length

/-- Length of the maximal whitespace run at the head of the list (`\s*` greedy). -/
def spaceRun (l : List Char) : Nat := (l.takeWhile Char.isWhitespace).length

/-- Case-insensitive prefix test for a literal word (the `re.IGNORECASE` flag). -/
def caselessStarts : List Char → List Char → Bool
  | [], _ => true
  | _ :: _, [] => false
  | w :: ws, c :: cs => w.toLower = c.toLower && caselessStarts ws cs

/-! ## The individual patterns -/

/-- `\b0\d{9}\b` — Zimbabwe phone numbers (e.g. `0788405008`). -/
def phoneM1 (prev : Option Char) (rest : List Char) : Option Nat :=
  match rest with
  | '0' :: r =>
    if prevNonWord prev && (r.take 9).length = 9 && (r.take 9).all Char.isDigit
        && nonWordAt (r.drop 9) then some 10 else none
  | _ => none

/-- `\b\d{3}\s\d{3}\s\d{3}\b` — spaced phone numbers (e.g. `078 840 500`).
(The conjuncts of the condition are the regex's requirements; their order
is immaterial to the value.) -/
def phoneM2 (prev : Option Char) (rest : List Char) : Option Nat :=
  match rest with
  | a :: b :: c :: s1 :: d :: e :: f :: s2 :: g :: h :: i :: r =>
    if [a, b, c].all Char.isDigit && s1.isWhitespace
        && [d, e, f].all Char.isDigit && s2.isWhitespace
        && [g, h, i].all Char.isDigit && nonWordAt r
        && prevNonWord prev then some 11 else none
  | _ => none

/-- `\b\d{4}\s\d{3}\s\d{3}\b` — alternative spacing (e.g. `0788 405 008`). -/
def phoneM3 (prev : Option Char) (rest : List Char) : Option Nat :=
  match rest with
  | a :: b :: c :: c4 :: s1 :: d :: e :: f :: s2 :: g :: h :: i :: r =>
    if [a, b, c, c4].all Char.isDigit && s1.isWhitespace
        && [d, e, f].all Char.isDigit && s2.isWhitespace
        && [g, h, i].all Char.isDigit && nonWordAt r
        && prevNonWord prev then some 12 else none
  | _ => none

/-- The currency alternation `(Zig|ZWL|USD|Dollar|Dollars)`, in source order. -/
def currencyWords : List (List Char) :=
  ["Zig".toList, "ZWL".toList, "USD".toList, "Dollar".toList, "Dollars".toList]

/-- Try the currency alternatives in order; each one must be followed by a
position where `\b` holds (the words end in a letter, so the next character
must be absent or a non-word character).  When an earlier alternative matches
but its trailing `\b` fails, the engine backtracks into the next alternative,
which this ordered search reproduces (`Dollar` vs `Dollars`). -/
def tryCurrency : List (List Char) → List Char → Option Nat
  | [], _ => none
  | w :: ws, l =>
    if caselessStarts w l && nonWordAt (l.drop w.length) then some w.length
    else tryCurrency ws l

/-- `\b\d+\s*(Zig|ZWL|USD|Dollar|Dollars)\b` with `re.IGNORECASE`.
The greedy `\d+` and `\s*` are maximal runs; backtracking them cannot create
a match (a currency word starts with a letter, never a digit or a space), so
maximal-run matching is faithful. -/
def amountM1 (prev : Option Char) (rest : List Char) : Option Nat :=
  let nd := digitRun rest
  if 1 ≤ nd then
    let r1 := rest.drop nd
    let ns := spaceRun r1
    match tryCurrency currencyWords (r1.drop ns) with
    | some wl => if prevNonWord prev then some (nd + ns + wl) else none
    | none => none
  else none

/-- `\b(Zig|ZWL|USD|Dollar|Dollars)\s*\d+\b` with `re.IGNORECASE`.
Alternatives are tried in order with full continuation (spaces, digits,
trailing `\b`), reproducing the engine's backtracking. -/
def amountM2 (prev : Option Char) (rest : List Char) : Option Nat :=
  match amountM2Words currencyWords rest with
  | some len => if prevNonWord prev then some len else none
  | none => none
where
  amountM2Words : List (List Char) → List Char → Option Nat
    | [], _ => none
    | w :: ws, l =>
      if caselessStarts w l then
        let r1 := l.drop w.length
        let ns := spaceRun r1
        let nd := digitRun (r1.drop ns)
        if nd ≥ 1 && nonWordAt ((r1.drop ns).drop nd) then some (w.length + ns + nd)
        else amountM2Words ws l
      else amountM2Words ws l

/-- `\$\d+` — dollar amounts (no boundary assertions in the source pattern). -/
def amountM3 (_prev : Option Char) (rest : List Char) : Option Nat :=
  match rest with
  | '$' :: r =>
    let nd := digitRun r
    if nd ≥ 1 then some (1 + nd) else none
  | _ => none

/-- One name token `[A-Z][a-z]+`: an uppercase letter followed by a maximal
nonempty run of lowercase letters (shrinking the greedy `[a-z]+` cannot help:
the following pattern element is a literal space or a `\b`, and a lowercase
letter satisfies neither). -/
def nameTok (l : List Char) : Option Nat :=
  match l with
  | c :: r =>
    if c.isUpper then
      let nl := (r.takeWhile Char.isLower).length
      if nl ≥ 1 then some (1 + nl) else none
    else none
  | [] => none

/-- `\b[A-Z][a-z]+ [A-Z][a-z]+\b` — two-part names. -/
def nameM2 (prev : Option Char) (rest : List Char) : Option Nat :=
  match nameTok rest with
  | some n1 =>
    match rest.drop n1 with
    | ' ' :: r2 =>
      match nameTok r2 with
      | some n2 =>
        if nonWordAt (r2.drop n2) && prevNonWord prev then some (n1 + 1 + n2) else none
      | none => none
    | _ => none
  | none => none

/-- `\b[A-Z][a-z]+ [A-Z][a-z]+ [A-Z][a-z]+\b` — three-part full names. -/
def nameM3 (prev : Option Char) (rest : List Char) : Option Nat :=
  match nameTok rest with
  | some n1 =>
    match rest.drop n1 with
    | ' ' :: r2 =>
      match nameTok r2 with
      | some n2 =>
        match r2.drop n2 with
        | ' ' :: r3 =>
          match nameTok r3 with
          | some n3 =>
            if nonWordAt (r3.drop n3) && prevNonWord prev then
              some (n1 + 1 + n2 + 1 + n3)
            else none
          | none => none
        | _ => none
      | none => none
    | _ => none
  | none => none

/-- `\b\d{8,12}\b` — account numbers.  The greedy `{8,12}` takes at most 12
digits; if the digit run is longer than 12 every backtracking choice leaves a
digit right after the match, so `\b` fails and there is no match at all. -/
def accountM1 (prev : Option Char) (rest : List Char) : Option Nat :=
  let nd := digitRun rest
  if 8 ≤ nd && nd ≤ 12 && nonWordAt (rest.drop nd) && prevNonWord prev then some nd
  else none

/-- `\b[A-Z]{2}\d{6,10}\b` — reference codes. -/
def accountM2 (prev : Option Char) (rest : List Char) : Option Nat :=
  match rest with
  | a :: b :: r =>
    if a.isUpper && b.isUpper then
      let nd := digitRun r
      if 6 ≤ nd && nd ≤ 10 && nonWordAt (r.drop nd) && prevNonWord prev then
        some (2 + nd)
      else none
    else none
  | _ => none

/-! ## `re.sub` and `re.finditer` -/

/-- The character preceding the position right after a match of length `n`
starting at `c :: cs` (Python evaluates `\b` against the original text, so
after a replacement the previous character is the last matched original
character). -/
def lastMatched (c : Char) (cs : List Char) (n : Nat) : Char :=
  ((c :: cs).take n).getLastD c

/-- Leftmost non-overlapping substitution, as `re.sub`: scan left to right,
replace each match and resume after it.  `fuel` is an upper bound on the
remaining length (every match of the patterns above is nonempty). -/
def reSubGo (m : Option Char → List Char → Option Nat) (repl : List Char) :
    Nat → Option Char → List Char → List Char
  | _, _, [] => []
  | 0, _, l => l
  | Nat.succ fuel, prev, c :: cs =>
    match m prev (c :: cs) with
    | some n => repl ++ reSubGo m repl fuel (some (lastMatched c cs n)) ((c :: cs).drop n)
    | none => c :: reSubGo m repl fuel (some c) cs

/-- `re.sub(pattern, repl, s)` for one of the patterns above. -/
def reSub (m : Option Char → List Char → Option Nat) (repl : List Char)
    (s : List Char) : List Char :=
  reSubGo m repl s.length none s

/-- `re.finditer`: the `(start, end)` spans of the leftmost non-overlapping
matches. -/
def findIterGo (m : Option Char → List Char → Option Nat) :
    Nat → Option Char → List Char → Nat → List (Nat × Nat)
  | _, _, [], _ => []
  | 0, _, _, _ => []
  | Nat.succ fuel, prev, c :: cs, pos =>
    match m prev (c :: cs) with
    | some n =>
      (pos, pos + n) ::
        findIterGo m fuel (some (lastMatched c cs n)) ((c :: cs).drop n) (pos + n)
    | none => findIterGo m fuel (some c) cs (pos + 1)

/-- The list of match spans of a pattern over a text. -/
def findIter (m : Option Char → List Char → Option Nat) (s : List Char) :
    List (Nat × Nat) :=
  findIterGo m s.length none s 0

/-! ## The sanitizers -/

def phoneRepl : List Char := "[PHONE_NUMBER]".toList
def amountRepl : List Char := "[AMOUNT]".toList
def nameRepl : List Char := "[CUSTOMER_NAME]".toList
def accountRepl : List Char := "[ACCOUNT_NUMBER]".toList

/-- `TranscriptSanitizer.sanitize`'s name-masking loop body for one pattern
(`transcript_sanitizer.py`, lines 61–66): the match spans are computed once
on the current text, and if there are at least two, every match after the
first is replaced **using the original span indices** even though each
replacement changes the string's length (`sanitized[:match.start()] +
'[CUSTOMER_NAME]' + sanitized[match.end():]`, iterating `matches[1:]` in
forward order).  `List.take`/`List.drop` clamp exactly like Python slices. -/
def maskNamesStale (m : Option Char → List Char → Option Nat) (s : List Char) :
    List Char :=
  let ms := findIter m s
  if ms.length > 1 then
    (ms.drop 1).foldl (fun acc sp => acc.take sp.1 ++ nameRepl ++ acc.drop sp.2) s
  else s

/-- `AIService.sanitize_transcript`'s name masking (`ai_service.py`,
lines 246–250): same replacement, but iterating `reversed(matches[1:])`
("Reverse to maintain positions"), so the spans stay valid. -/
def maskNamesRev (m : Option Char → List Char → Option Nat) (s : List Char) :
    List Char :=
  let ms := findIter m s
  if ms.length > 1 then
    ((ms.drop 1).reverse).foldl (fun acc sp => acc.take sp.1 ++ nameRepl ++ acc.drop sp.2) s
  else s

/-- `TranscriptSanitizer.sanitize` (`transcript_sanitizer.py`, lines 38–77):
phone patterns, then amount patterns, then the name-masking loop over the
three-part and then the two-part pattern, then the account patterns. -/
def sanitizeTS (t : List Char) : List Char :=
  let s := reSub phoneM1 phoneRepl t
  let s := reSub phoneM2 phoneRepl s
  let s := reSub phoneM3 phoneRepl s
  let s := reSub amountM1 amountRepl s
  let s := reSub amountM2 amountRepl s
  let s := reSub amountM3 amountRepl s
  let s := maskNamesStale nameM3 s
  let s := maskNamesStale nameM2 s
  let s := reSub accountM1 accountRepl s
  let s := reSub accountM2 accountRepl s
  s

/-- `AIService.sanitize_transcript` (`ai_service.py`, lines 231–252): phone
patterns, amount patterns, the three-part name pattern with reversed masking,
then the `\b\d{8,12}\b` account pattern (that method has no `[A-Z]{2}` code
pattern). -/
def sanitizeAI (t : List Char) : List Char :=
  let s := reSub phoneM1 phoneRepl t
  let s := reSub phoneM2 phoneRepl s
  let s := reSub phoneM3 phoneRepl s
  let s := reSub amountM1 amountRepl s
  let s := reSub amountM2 amountRepl s
  let s := reSub amountM3 amountRepl s
  let s := maskNamesRev nameM3 s
  let s := reSub accountM1 accountRepl s
  s

/-! ## Session lifecycle and the post-call pipeline

`app/main.py`: `start_call` creates the session with status `active`;
`end_call` calls `DatabaseManager.end_call_session` (which writes status
`ended` and the end time), then — if uploaded audio files exist and the AI
service is configured — writes status `processing` and schedules
`process_call_audio_after_end` as a background task; that task finally
writes status `ended` on both its success and its error path.
`CallStatus` (`app/models/call_models.py`) has exactly the three values
`active`, `ended`, `processing`; there is no failed status.

The pipeline is embedded as a function of the collaborators' outcomes:
 * for each artifact, whether `convert_to_wav` raises, whether
   `transcribe_audio_with_timestamps` raises, the duration reported by
   `analyze_audio_properties` (`0` when analysis failed, via
   `audio_props.get("duration", 0)`), and the per-file transcript text
   (the stripped segment texts joined by single spaces);
 * whether the AI service is configured;
 * whether `create_call_summary` / `create_call_analytics` raise
   (they re-raise database errors; `update_call_session`, the socket
   broadcasts, `enhance_audio_quality`, `analyze_audio_properties`,
   `cleanup_temp_files` and `sync_call_summary` all catch internally).

There is no try/except around the per-artifact work, so the first raise
anywhere inside the loop jumps to the outer handler, which broadcasts
`("error", 0.0)` and writes status `ended`. -/

/-- `CallStatus` from `app/models/call_models.py`. -/
inductive CallStatus where
  | active
  | ended
  | processing
deriving DecidableEq, Repr

/-- Collaborator outcomes for one uploaded audio artifact, in the order the
pipeline consumes them. -/
structure Artifact where
  /-- `convert_to_wav` succeeds (it re-raises conversion errors). -/
  convertOk : Bool
  /-- `transcribe_audio_with_timestamps` succeeds (it re-raises API errors). -/
  transcribeOk : Bool
  /-- `audio_props.get("duration", 0)` — `0` when analysis failed. -/
  duration : ℚ
  /-- `file_transcript`: the segment texts, each stripped, the empty ones
  dropped, joined by single spaces; `[]` when nothing was recognized. -/
  text : List Char
deriving DecidableEq, Repr

/-- Python's `str.strip()`: drop whitespace from both ends. -/
def stripPy (l : List Char) : List Char :=
  ((l.dropWhile Char.isWhitespace).reverse.dropWhile Char.isWhitespace).reverse

/-- Collaborator outcomes for one whole run of
`process_call_audio_after_end`. -/
structure RunConfig where
  arts : List Artifact
  /-- `services["ai"]` is not `None`. -/
  ai : Bool
  /-- `create_call_summary` succeeds. -/
  summaryOk : Bool
  /-- `create_call_analytics` succeeds. -/
  analyticsOk : Bool
deriving DecidableEq, Repr

/-- What one run produced. -/
structure RunResult where
  /-- The `broadcast_audio_processing_status` events, in order:
  `(stage, progress)`. -/
  events : List (String × ℚ)
  /-- The `status` values written by `update_call_session` inside the task. -/
  statusWrites : List CallStatus
  /-- The transcript text persisted by `create_call_summary`
  (`none` if no summary was created). -/
  summary? : Option (List Char)
deriving DecidableEq, Repr

/-- Stage name `f"processing_file_{i+1}_of_{n}"`. -/
def stageName (i n : ℕ) : String :=
  "processing_file_" ++ toString (i + 1) ++ "_of_" ++ toString n

/-- Progress for artifact `i` of `n`:
`0.1 + (i / len(audio_files)) * 0.6`. -/
def fileProgress (i n : ℕ) : ℚ := 1/10 + ((i : ℚ) / (n : ℚ)) * (6/10)

/-- The per-artifact loop of `process_call_audio_after_end`
(`app/main.py`, lines 270–315).  Returns the emitted progress events, the
accumulated `complete_transcript` suffix, the accumulated duration, and
whether the loop ran to completion (`false` = an exception escaped).
The progress event for an artifact is emitted before its conversion, so a
failing artifact still emits its event. -/
def procArts (ai : Bool) (n : ℕ) :
    List Artifact → ℕ → List (String × ℚ) × List Char × ℚ × Bool
  | [], _ => ([], [], 0, true)
  | a :: rest, i =>
    let ev := (stageName i n, fileProgress i n)
    if a.convertOk = false then ([ev], [], 0, false)
    else if ai && a.transcribeOk = false then ([ev], [], 0, false)
    else
      let r := procArts ai n rest (i + 1)
      (ev :: r.1,
       (if ai && a.text ≠ [] then ' ' :: a.text else []) ++ r.2.1,
       a.duration + r.2.2.1,
       r.2.2.2)

/-- `process_call_audio_after_end` (`app/main.py`, lines 256–397). -/
def runPipeline (cfg : RunConfig) : RunResult :=
  let n := cfg.arts.length
  let r := procArts cfg.ai n cfg.arts 0
  let evs0 := ("processing", (1/10 : ℚ)) :: r.1
  if r.2.2.2 = false then
    -- an exception escaped the loop: outer handler
    { events := evs0 ++ [("error", 0)], statusWrites := [.ended], summary? := none }
  else
    let evs1 := evs0 ++ [("generating_summary", (8/10 : ℚ))]
    let tfin := stripPy r.2.1
    if cfg.ai && tfin ≠ [] then
      if cfg.summaryOk = false then
        { events := evs1 ++ [("error", 0)], statusWrites := [.ended], summary? := none }
      else if cfg.analyticsOk = false then
        -- summary already persisted; analytics raise reaches the outer handler
        { events := evs1 ++ [("error", 0)], statusWrites := [.ended], summary? := some tfin }
      else
        { events := evs1 ++ [("syncing_crm", (9/10 : ℚ)), ("completed", 1)],
          statusWrites := [.ended], summary? := some tfin }
    else
      { events := evs1 ++ [("completed", 1)], statusWrites := [.ended], summary? := none }

/-- The sequence of values written to the session's `status` field over its
life, for a session that is started, receives its uploads, and is ended once:
`start_call` writes `active`; `end_call` always runs `end_call_session`
(status `ended`), then, when audio files exist and the AI service is
configured, writes `processing` and the background task appends its writes. -/
def sessionStatusTrace (cfg : RunConfig) : List CallStatus :=
  [.active, .ended] ++
    (if cfg.arts ≠ [] ∧ cfg.ai then .processing :: (runPipeline cfg).statusWrites else [])

/-- Position of a status along the lifecycle chain claimed by the spec,
`Active → Processing → {Ended, Failed}` (the code's `CallStatus` has no
failed value). -/
def statusRank : CallStatus → ℕ
  | .active => 0
  | .processing => 1
  | .ended => 2

/-- The upload-order join of transcript texts by single spaces (the shape
the claim describes for the final Transcript). -/
def joinSpace : List (List Char) → List Char
  | [] => []
  | [t] => t
  | t :: ts => t ++ ' ' :: joinSpace ts

/-- A text with no leading or trailing whitespace (the per-file transcripts
are built from stripped segment texts, so they have this shape). -/
def noEdgeWS (t : List Char) : Prop :=
  t.head?.all (fun c => !c.isWhitespace) = true ∧
  t.getLast?.all (fun c => !c.isWhitespace) = true

instance noEdgeWS.instDec (t : List Char) : Decidable (noEdgeWS t) :=
  inferInstanceAs (Decidable (t.head?.all (fun c => !c.isWhitespace) = true ∧
    t.getLast?.all (fun c => !c.isWhitespace) = true))

/-- The exact shape the loop accumulates when every artifact contributes:
each text prefixed by one space (`complete_transcript += f" {file_transcript}"`). -/
def spacedConcat (ts : List (List Char)) : List Char :=
  ts.foldr (fun t acc => (' ' :: t) ++ acc) []

/-! ## Audio analysis (`app/services/audio_processor.py`)

`analyze_audio_properties` loads the waveform at `self.sample_rate`
(16000 Hz), computes `duration = len(y) / sr`, and calls
`_detect_speech_segments(y, sr)` with `frame_length=2048`,
`hop_length=512`.  librosa is an external collaborator: its RMS frame
energies are an input of the model.  Its documented contract gives
`len(rms) = 1 + len(y) // hop_length` (centered framing) and
`times[i] = i * hop_length / sr`.  The threshold is
`np.percentile(rms, 30)` with numpy's default linear interpolation. -/

/-- Insertion into a sorted list (ascending). -/
def insertSorted (x : ℚ) : List ℚ → List ℚ
  | [] => [x]
  | y :: ys => if x ≤ y then x :: y :: ys else y :: insertSorted x ys

/-- Insertion sort, ascending. -/
def sortQ : List ℚ → List ℚ
  | [] => []
  | x :: xs => insertSorted x (sortQ xs)

/-- `np.percentile(xs, 30)` with linear interpolation: the virtual index is
`0.3 * (n - 1)`; writing it as `(30 * (n - 1)) / 100` with natural floor `i`
and fractional part `g = ((30 * (n - 1)) mod 100) / 100` (the index is
nonnegative, so this is exact), the result interpolates the two
neighbouring order statistics `s[i]` and `s[i+1]`. -/
def percentile30 (xs : List ℚ) : ℚ :=
  let s := sortQ xs
  let n := s.length
  let i : ℕ := 30 * (n - 1) / 100
  let g : ℚ := ((30 * (n - 1)) % 100 : ℕ) / 100
  s.getD i 0 + g * (s.getD (i + 1) (s.getD i 0) - s.getD i 0)

/-- The frame loop of `_detect_speech_segments` (lines 202–219), over the
list of `(times[i], rms[i] > threshold)` pairs.  `lastTime` is `times[-1]`,
used to close an open segment when the clip ends during speech — note that
this trailing append has no minimum-length check. -/
def segLoop : List (ℚ × Bool) → Bool → ℚ → ℚ → List (ℚ × ℚ)
  | [], inSpeech, start, lastTime => if inSpeech then [(start, lastTime)] else []
  | (t, sp) :: rest, inSpeech, start, lastTime =>
    if sp && !inSpeech then segLoop rest true t lastTime
    else if !sp && inSpeech then
      (if t - start > 1/10 then [(start, t)] else []) ++ segLoop rest false start lastTime
    else segLoop rest inSpeech start lastTime

/-- Frame times `librosa.frames_to_time(np.arange(len(rms)), sr, hop)`,
paired with the speech flags `rms > threshold`. -/
def speechFrames (rms : List ℚ) (hop sr : ℕ) : List (ℚ × Bool) :=
  let thr := percentile30 rms
  (List.range rms.length).map fun i => (((i * hop : ℕ) : ℚ) / (sr : ℚ), decide (thr < rms.getD i 0))

/-- `_detect_speech_segments` on the frame energies: threshold at the 30th
percentile, mark frames above it, run the loop, close a trailing open
segment at `times[-1]`. -/
def detectSpeechSegments (rms : List ℚ) (hop sr : ℕ) : List (ℚ × ℚ) :=
  let lastTime : ℚ := (((rms.length - 1) * hop : ℕ) : ℚ) / (sr : ℚ)
  segLoop (speechFrames rms hop sr) false 0 lastTime

/-- The fields of `analyze_audio_properties` that the claims are about. -/
structure AudioAnalysis where
  duration : ℚ
  speechSegments : List (ℚ × ℚ)
  totalSpeechTime : ℚ
  silenceRatio : ℚ
deriving DecidableEq, Repr

/-- `analyze_audio_properties` (lines 145–182) for a waveform of `n`
samples whose RMS frame energies are `rms`: duration `n / sr`, segments
from `_detect_speech_segments`, `total_speech_time = Σ (e - s)`,
`silence_ratio = 1 - total_speech_time / duration`.  A zero duration makes
the ratio raise `ZeroDivisionError`, caught by the method's handler which
returns an error dictionary instead: modelled as `none`. -/
def analyzeAudioProperties (n : ℕ) (rms : List ℚ) (hop sr : ℕ) :
    Option AudioAnalysis :=
  let duration : ℚ := (n : ℚ) / (sr : ℚ)
  let segs := detectSpeechSegments rms hop sr
  let speech := (segs.map fun sp => sp.2 - sp.1).sum
  if duration = 0 then none
  else some { duration := duration, speechSegments := segs,
              totalSpeechTime := speech, silenceRatio := 1 - speech / duration }

/-! ## Insight extraction

Two implementations exist in the repository:
 * `AIService.generate_summary_from_text` (`app/services/ai_service.py`,
   lines 254–355): on a successful request with non-empty content it
   returns `json.loads(content)` **verbatim** — no field validation; every
   failure path (request exception, no choices, empty content, JSON decode
   error) falls through to a fixed fallback dictionary.
 * `generate_summary_from_text` in `ai_service_patch.py` (an unapplied
   patch file, "Copy this into your ai_service.py"): truncates long input,
   strips code fences, and validates/coerces each field after parsing.

JSON values are embedded structurally; the external model's reply is
abstracted as either a failure (exception / no content / unparsable) or a
parsed JSON value. -/

inductive JValue where
  | jnull
  | jbool (b : Bool)
  | jnum (q : ℚ)
  | jstr (s : String)
  | jarr (xs : List JValue)
  | jobj (fields : List (String × JValue))

/-- `dict.get(key)`: the value under a key (object keys are unique after
`json.loads`). -/
def jget (fs : List (String × JValue)) (k : String) : Option JValue :=
  match fs with
  | [] => none
  | (k', v) :: rest => if k' = k then some v else jget rest k

/-- `result[key] = v`: overwrite an existing key in place, else append. -/
def jset (fs : List (String × JValue)) (k : String) (v : JValue) :
    List (String × JValue) :=
  match fs with
  | [] => [(k, v)]
  | (k', v') :: rest => if k' = k then (k', v) :: rest else (k', v') :: jset rest k v

/-- Python's `str()` of a JSON value (exact rendering of containers is
irrelevant to every theorem below — only that the result is a string). -/
def pyStr : JValue → String
  | .jnull => "None"
  | .jbool true => "True"
  | .jbool false => "False"
  | .jnum q => toString q
  | .jstr s => s
  | .jarr _ => "[...]"
  | .jobj _ => "{...}"

/-- The external extraction capability's reply, as the code branches on it. -/
inductive ExtractReply where
  /-- request exception, no choices, empty content, or JSON decode failure -/
  | failure
  /-- `json.loads` succeeded with this value -/
  | parsed (j : JValue)

/-- The fallback dictionary of `AIService.generate_summary_from_text`
(lines 344–355). -/
def serviceFallback : JValue :=
  .jobj [
    ("summary", .jarr [.jstr "Call processed successfully",
                       .jstr "Customer service interaction completed",
                       .jstr "Standard call center workflow followed"]),
    ("sentiment", .jstr "neutral"),
    ("category", .jstr "general_inquiry"),
    ("action_items", .jarr [.jstr "Monitor call quality", .jstr "Follow up if needed"]),
    ("customer_requests", .jarr [.jstr "General assistance and support"]),
    ("resolution_status", .jstr "resolved"),
    ("priority", .jstr "medium"),
    ("tags", .jarr [.jstr "general", .jstr "customer_service"]),
    ("agent_performance", .jstr "Standard service provided according to protocol"),
    ("follow_up_required", .jbool false)]

/-- `AIService.generate_summary_from_text`: parsable content is returned
as-is (`return parsed`); everything else yields the fallback. -/
def serviceSummary : ExtractReply → JValue
  | .failure => serviceFallback
  | .parsed j => j

/-- The fallback dictionary of the patch (`ai_service_patch.py`,
lines 130–141). -/
def patchFallback : JValue :=
  .jobj [
    ("summary", .jarr [.jstr "Error generating summary"]),
    ("sentiment", .jstr "neutral"),
    ("category", .jstr "other"),
    ("action_items", .jarr [.jstr "Review call recording for manual analysis"]),
    ("customer_requests", .jarr [.jstr "Unable to determine from transcript"]),
    ("resolution_status", .jstr "pending"),
    ("priority", .jstr "medium"),
    ("tags", .jarr [.jstr "processing_error", .jstr "manual_review_needed"]),
    ("agent_performance", .jstr "Unable to assess due to processing error"),
    ("follow_up_required", .jbool true)]

/-- Closed-set membership test for an enumeration field, as the patch writes
it: `result.get(key) not in allowed` (only string values can be in the
allowed list). -/
def enumOk (fs : List (String × JValue)) (k : String) (allowed : List String) : Bool :=
  match jget fs k with
  | some (.jstr s) => allowed.contains s
  | _ => false

/-- `if result.get(k) not in allowed: result[k] = default`. -/
def fixEnum (fs : List (String × JValue)) (k : String) (allowed : List String)
    (dflt : String) : List (String × JValue) :=
  if enumOk fs k allowed then fs else jset fs k (.jstr dflt)

/-- `isinstance(result.get(k), list)`. -/
def isListAt (fs : List (String × JValue)) (k : String) : Bool :=
  match jget fs k with
  | some (.jarr _) => true
  | _ => false

/-- `if not isinstance(result.get(k), list): result[k] = []`. -/
def fixList (fs : List (String × JValue)) (k : String) : List (String × JValue) :=
  if isListAt fs k then fs else jset fs k (.jarr [])

/-- `if not isinstance(result.get("summary"), list):
result["summary"] = [str(result.get("summary", "Unable to generate summary"))]`. -/
def fixSummary (fs : List (String × JValue)) : List (String × JValue) :=
  if isListAt fs "summary" then fs
  else jset fs "summary"
    (.jarr [.jstr (pyStr ((jget fs "summary").getD (.jstr "Unable to generate summary")))])

/-- `if not isinstance(result.get("follow_up_required"), bool):
result["follow_up_required"] = False`. -/
def fixBool (fs : List (String × JValue)) : List (String × JValue) :=
  match jget fs "follow_up_required" with
  | some (.jbool _) => fs
  | _ => jset fs "follow_up_required" (.jbool false)

/-- The field validation block of the patch (`ai_service_patch.py`,
lines 96–119), in source order. -/
def patchValidate (fs : List (String × JValue)) : List (String × JValue) :=
  let fs := fixSummary fs
  let fs := fixEnum fs "resolution_status" ["resolved", "pending", "escalated"] "pending"
  let fs := fixEnum fs "sentiment" ["positive", "neutral", "negative"] "neutral"
  let fs := fixEnum fs "category"
    ["billing", "technical", "bundles", "complaints", "general_inquiry", "other"] "other"
  let fs := fixEnum fs "priority" ["high", "medium", "low"] "medium"
  let fs := fixList fs "action_items"
  let fs := fixList fs "customer_requests"
  let fs := fixList fs "tags"
  let fs := fixBool fs
  fs

/-- `generate_summary_from_text` from `ai_service_patch.py`: a failed or
unparsable reply yields the fallback; parsed non-object JSON raises
`AttributeError` at the first `result.get`, caught by the outer handler
(fallback again); a parsed object is validated field by field. -/
def patchSummary : ExtractReply → JValue
  | .failure => patchFallback
  | .parsed (.jobj fs) => .jobj (patchValidate fs)
  | .parsed _ => patchFallback

/-- The validity predicate of claim C6: every enumeration field in its
closed set, every list field a list, the boolean field a boolean. -/
def insightValid (j : JValue) : Bool :=
  match j with
  | .jobj fs =>
    enumOk fs "sentiment" ["positive", "neutral", "negative"] &&
    enumOk fs "category"
      ["billing", "technical", "bundles", "complaints", "general_inquiry", "other"] &&
    enumOk fs "resolution_status" ["resolved", "pending", "escalated"] &&
    enumOk fs "priority" ["high", "medium", "low"] &&
    isListAt fs "summary" && isListAt fs "action_items" &&
    isListAt fs "customer_requests" && isListAt fs "tags" &&
    (match jget fs "follow_up_required" with
     | some (.jbool _) => true
     | _ => false)
  | _ => false

/-! ## Transcript truncation before submission -/

/-- The truncation marker appended by the patch. -/
def truncMarker : List Char := "... [truncated]".toList

/-- The patch's input preparation (`ai_service_patch.py`, lines 14–18):
`max_transcript_length = 8000`; longer input is cut to 8000 characters and
the marker is appended; otherwise the text is used unchanged. -/
def patchSubmitted (t : List Char) : List Char :=
  if t.length > 8000 then t.take 8000 ++ truncMarker else t

/-- What `AIService.generate_summary_from_text` actually embeds in the
prompt (lines 260, 268): the sanitized transcript, at any length — there is
no truncation in the deployed method. -/
def serviceSubmitted (t : List Char) : List Char := sanitizeAI t

/-! ## CRM sync (`app/services/crm_mock.py`) -/

inductive CRMProvider where
  | salesforce
  | zendesk
  | hubspot
deriving DecidableEq, Repr

/-- `CRMStatus` values the sync returns. -/
inductive CRMStatus where
  | success
  | failed
deriving DecidableEq, Repr

/-- The caller-visible outcome of `sync_call_summary`. -/
structure SyncResult where
  status : CRMStatus
  crmRecordId : Option String
  error : Option String
deriving DecidableEq, Repr

/-- `MockCRMIntegration.sync_call_summary` (lines 35–86).  The whole body is
inside `try`; `randomOk` abstracts `random.random() < self.success_rate`;
`bodyExc` abstracts any exception raised inside the try block (the awaited
sleep or record building) before the draw; `recordId`/`mockError` abstract
the generated UUID and the drawn mock error message.  Every path returns a
record: success with a record id, or failed with an error string — the
`except` clause also returns, never re-raises. -/
def syncCallSummary (_provider : CRMProvider) (randomOk : Bool)
    (bodyExc : Option String) (recordId : String) (mockError : String) : SyncResult :=
  match bodyExc with
  | some e => { status := .failed, crmRecordId := none, error := some e }
  | none =>
    if randomOk then { status := .success, crmRecordId := some recordId, error := none }
    else { status := .failed, crmRecordId := none, error := some mockError }

/-! ## Upload endpoints (claim C9)

Both upload handlers wrap their whole body in `try ... except Exception as
e: raise HTTPException(status_code=500, ...)`.  FastAPI's `HTTPException`
derives from `Exception`, so the 404/400 exceptions the handlers raise for
a missing session, a non-active session, or an unsupported extension are
caught by their own catch-all and re-raised as status 500. -/

/-- `upload_audio` (`app/main.py`, lines 190–253): the HTTP status code it
responds with, given whether the session exists, its status, and whether
the save/update/broadcast steps succeed. -/
def uploadAudioHTTP (found : Bool) (status : CallStatus) (saveOk : Bool) : ℕ :=
  -- inside try: not found → raise 404; not active → raise 400; then save.
  -- every raise is caught by `except Exception` and re-raised as 500.
  if found = false then 500
  else if status ≠ CallStatus.active then 500
  else if saveOk = false then 500
  else 200

/-- `Path(filename).suffix.lower()`: the extension from the last dot,
lower-cased; empty when there is no dot. -/
def pathSuffixLower (filename : String) : String :=
  let cs := filename.toList
  let rev := cs.reverse
  match rev.takeWhile (· ≠ '.') with
  | ext =>
    if ext.length = rev.length then ""   -- no dot at all
    else String.mk ('.' :: (ext.reverse.map Char.toLower))

/-- `upload_call_audio` (`app/api/hackathon_endpoints.py`, lines 35–97): the
HTTP status code, given the uploaded filename and whether the save/database
steps succeed.  The 400 raised for an unsupported extension is caught by
the endpoint's own `except Exception` and re-raised as 500. -/
def uploadCallAudioHTTP (filename : String) (saveOk : Bool) : ℕ :=
  let allowed := [".mp3", ".wav", ".webm", ".m4a", ".opus"]
  if allowed.contains (pathSuffixLower filename) = false then 500
  else if saveOk = false then 500
  else 200

/-! # Theorems -/

/-- C10: `MockCRMIntegration.sync_call_summary` never raises to its caller:
for every provider, random draw, internal exception and generated
identifiers, it returns a record whose status is success together with an
external record identifier, or failed together with an error reason. -/
theorem C10_sync_total (p : CRMProvider) (randomOk : Bool) (bodyExc : Option String)
    (recordId mockError : String) :
    ((syncCallSummary p randomOk bodyExc recordId mockError).status = CRMStatus.success ∧
      (syncCallSummary p randomOk bodyExc recordId mockError).crmRecordId.isSome = true) ∨
    ((syncCallSummary p randomOk bodyExc recordId mockError).status = CRMStatus.failed ∧
      (syncCallSummary p randomOk bodyExc recordId mockError).error.isSome = true) := by
  cases bodyExc with
  | some e => right; simp [syncCallSummary]
  | none =>
    cases randomOk with
    | true => left; simp [syncCallSummary]
    | false => right; simp [syncCallSummary]

/-- C9: rejected uploads are *not* surfaced as client-input errors: the
endpoints' own catch-all converts the 400/404 they raise into HTTP 500.
Uploading to a session that exists but is `ended` or `processing` yields
500 from `upload_audio`, and uploading `recording.txt` (unsupported
extension) yields 500 from `upload_call_audio` — all indistinguishable
from a server-side processing failure. -/
theorem C9_client_errors_become_500 :
    uploadAudioHTTP true CallStatus.ended true = 500 ∧
    uploadAudioHTTP true CallStatus.processing true = 500 ∧
    uploadCallAudioHTTP "recording.txt" true = 500 ∧
    uploadCallAudioHTTP "recording.mp3" true = 200 := by decide

/-- C4: the Redactor's masking is not idempotent.  On
`"Al Bo x Ci Do x Ed Fo x Gu Hi"` the stale-index name replacement leaves
the names `Ed Fo` and `Gu Hi` unmasked in the first pass, so a second pass
masks further and produces a different string. -/
theorem C4_mask_not_idempotent :
    sanitizeTS (sanitizeTS ("Al Bo x Ci Do x Ed Fo x Gu Hi".toList)) ≠
      sanitizeTS ("Al Bo x Ci Do x Ed Fo x Gu Hi".toList) := by decide

/-- C8: with three matches of the two-part name pattern, the first is kept,
the second is replaced, but the third replacement uses stale indices: it
corrupts the placeholder just inserted and leaves the third name `Ed Fo`
unmasked, instead of producing
`"Al Bo x [CUSTOMER_NAME] x [CUSTOMER_NAME]"`. -/
theorem C8_stale_replacement :
    sanitizeTS ("Al Bo x Ci Do x Ed Fo".toList) =
      ("Al Bo x [CUSTOME[CUSTOMER_NAME]E] x Ed Fo".toList) ∧
    sanitizeTS ("Al Bo x Ci Do x Ed Fo".toList) ≠
      ("Al Bo x [CUSTOMER_NAME] x [CUSTOMER_NAME]".toList) := by decide

/-- C1 counterexample: ending a one-artifact session does not move it
`Active → Processing`: the status writes are
`active, ended, processing, ended`, which steps backwards from `ended` to
`processing`, so the write sequence is not a forward walk of the claimed
chain `Active → Processing → {Ended, Failed}`. -/
theorem C1_counterexample :
    sessionStatusTrace
        { arts := [{ convertOk := true, transcribeOk := true, duration := 5,
                     text := ['h', 'i'] }],
          ai := true, summaryOk := true, analyticsOk := true } =
      [CallStatus.active, CallStatus.ended, CallStatus.processing, CallStatus.ended] ∧
    ¬ List.Chain' (fun a b => statusRank a ≤ statusRank b)
        (sessionStatusTrace
          { arts := [{ convertOk := true, transcribeOk := true, duration := 5,
                       text := ['h', 'i'] }],
            ai := true, summaryOk := true, analyticsOk := true }) := by
  refine ⟨rfl, ?_⟩
  intro h
  rw [show sessionStatusTrace
        { arts := [{ convertOk := true, transcribeOk := true, duration := 5,
                     text := ['h', 'i'] }],
          ai := true, summaryOk := true, analyticsOk := true } =
      [CallStatus.active, CallStatus.ended, CallStatus.processing, CallStatus.ended] from rfl] at h
  simp only [List.chain'_cons, List.chain'_singleton, statusRank, and_true] at h
  omega

/-- C2 counterexample: in a 3-artifact run where artifact 2 fails
transcription, the exception escapes the per-artifact loop (there is no
per-artifact guard): artifact 3 is never processed, no Transcript or
summary is persisted, and the run's last event is `("error", 0.0)` instead
of reaching `Ended` with the texts of artifacts 1 and 3. -/
theorem C2_counterexample :
    (runPipeline
        { arts := [{ convertOk := true, transcribeOk := true, duration := 1,
                     text := ['t', '1'] },
                   { convertOk := true, transcribeOk := false, duration := 1,
                     text := ['t', '2'] },
                   { convertOk := true, transcribeOk := true, duration := 1,
                     text := ['t', '3'] }],
          ai := true, summaryOk := true, analyticsOk := true }).summary? = none ∧
    ((runPipeline
        { arts := [{ convertOk := true, transcribeOk := true, duration := 1,
                     text := ['t', '1'] },
                   { convertOk := true, transcribeOk := false, duration := 1,
                     text := ['t', '2'] },
                   { convertOk := true, transcribeOk := true, duration := 1,
                     text := ['t', '3'] }],
          ai := true, summaryOk := true, analyticsOk := true }).events).map Prod.snd =
      [1/10, 1/10, 3/10, 0] ∧
    ((runPipeline
        { arts := [{ convertOk := true, transcribeOk := true, duration := 1,
                     text := ['t', '1'] },
                   { convertOk := true, transcribeOk := false, duration := 1,
                     text := ['t', '2'] },
                   { convertOk := true, transcribeOk := true, duration := 1,
                     text := ['t', '3'] }],
          ai := true, summaryOk := true, analyticsOk := true }).events).getLast? =
      some ("error", 0) := by
  refine ⟨rfl, ?_, ?_⟩
  · simp only [runPipeline, procArts]
    norm_num [fileProgress]
  · rfl

/-- C3 counterexample: a run whose single artifact fails transcription
emits `0.1, 0.1, 0.0` — the final event is `("error", 0.0)` as the claim
says, but then the fraction sequence is not non-decreasing, so the claim's
two requirements contradict the code on failing runs. -/
theorem C3_counterexample :
    ((runPipeline
        { arts := [{ convertOk := true, transcribeOk := false, duration := 0,
                     text := [] }],
          ai := true, summaryOk := true, analyticsOk := true }).events).map Prod.snd =
      [1/10, 1/10, 0] ∧
    ((runPipeline
        { arts := [{ convertOk := true, transcribeOk := false, duration := 0,
                     text := [] }],
          ai := true, summaryOk := true, analyticsOk := true }).events).getLast? =
      some ("error", 0) ∧
    ¬ List.Chain' (fun a b : String × ℚ => a.2 ≤ b.2)
        (runPipeline
          { arts := [{ convertOk := true, transcribeOk := false, duration := 0,
                       text := [] }],
            ai := true, summaryOk := true, analyticsOk := true }).events := by
  have hmap : ((runPipeline
      { arts := [{ convertOk := true, transcribeOk := false, duration := 0,
                   text := [] }],
        ai := true, summaryOk := true, analyticsOk := true }).events).map Prod.snd =
      [1/10, 1/10, 0] := by
    simp only [runPipeline, procArts]
    norm_num [fileProgress]
  refine ⟨hmap, rfl, ?_⟩
  intro h
  have h2 := List.chain'_map_of_chain' Prod.snd (fun a b hab => hab) h
  rw [hmap] at h2
  simp only [List.chain'_cons, List.chain'_singleton, and_true] at h2
  have h3 := h2.2
  norm_num at h3

/-- C5 counterexample: on a 1536-sample clip (duration 0.096 s at 16 kHz)
whose four RMS frames are `0, 0, 0, 1`, only the last frame is above the
30th-percentile threshold, the loop ends inside speech, and the trailing
append — which skips the minimum-length check — produces the degenerate
segment `(0.096, 0.096)`: its start is not strictly below its end and its
length is below 0.1 s. -/
theorem C5_counterexample :
    analyzeAudioProperties 1536 [0, 0, 0, 1] 512 16000 =
      some { duration := 12/125, speechSegments := [(12/125, 12/125)],
             totalSpeechTime := 0, silenceRatio := 1 } ∧
    ¬ ((12 : ℚ)/125 < 12/125 ∧ (12 : ℚ)/125 - 12/125 ≥ 1/10) := by
  constructor
  · norm_num [analyzeAudioProperties, detectSpeechSegments, speechFrames, percentile30,
      sortQ, insertSorted, segLoop, List.range_succ]
  · intro h
    exact absurd h.1 (by norm_num)

/-- C6 counterexample: the deployed extractor
(`AIService.generate_summary_from_text`) returns parsable JSON verbatim, so
a reply `{"sentiment": "angry"}` comes back with an out-of-set sentiment and
missing list fields — not a record with every enumeration field in its
closed set. -/
theorem C6_counterexample :
    insightValid (serviceSummary (.parsed (.jobj [("sentiment", .jstr "angry")]))) = false := by
  rfl

/-! ### Helper lemmas for the pipeline claims -/

/-- Both the success and the error path of the background task end by
writing status `ended`. -/
theorem runPipeline_statusWrites (cfg : RunConfig) :
    (runPipeline cfg).statusWrites = [CallStatus.ended] := by
  simp only [runPipeline]
  split
  · rfl
  · split
    · split
      · rfl
      · split
        · rfl
        · rfl
    · rfl

theorem fileProgress_lb (i n : ℕ) : (1 : ℚ)/10 ≤ fileProgress i n := by
  unfold fileProgress
  have h : (0 : ℚ) ≤ ((i : ℚ) / (n : ℚ)) * (6/10) := by positivity
  linarith

theorem fileProgress_mono {i j : ℕ} (n : ℕ) (h : i ≤ j) :
    fileProgress i n ≤ fileProgress j n := by
  unfold fileProgress
  rcases Nat.eq_zero_or_pos n with h0 | h0
  · subst h0; norm_num
  · have hn : (0 : ℚ) < (n : ℚ) := by exact_mod_cast h0
    have hij : (i : ℚ) / n ≤ (j : ℚ) / n := by
      rw [div_le_div_iff₀ hn hn]
      have hq : (i : ℚ) ≤ (j : ℚ) := by exact_mod_cast h
      nlinarith
    nlinarith

theorem fileProgress_ub {i n : ℕ} (h : i < n) : fileProgress i n ≤ 7/10 := by
  unfold fileProgress
  have hn : (0 : ℚ) < (n : ℚ) := by exact_mod_cast Nat.zero_lt_of_lt h
  have hdiv : (i : ℚ) / n ≤ 1 := by
    rw [div_le_one hn]
    exact_mod_cast le_of_lt h
  nlinarith

/-- The per-artifact loop emits one event per processed artifact: each event
carries the fraction of its index, the fractions are non-decreasing along
the list, and the first event (when present) carries the fraction of the
starting index. -/
theorem procArts_events (ai : Bool) (n : ℕ) :
    ∀ (arts : List Artifact) (i : ℕ),
      (∀ ev ∈ (procArts ai n arts i).1,
        ∃ j, i ≤ j ∧ j < i + arts.length ∧ ev.2 = fileProgress j n) ∧
      List.Chain' (fun a b : String × ℚ => a.2 ≤ b.2) (procArts ai n arts i).1 ∧
      (∀ ev ∈ ((procArts ai n arts i).1).head?, ev.2 = fileProgress i n) := by
  intro arts
  induction arts with
  | nil =>
    intro i
    refine ⟨?_, ?_, ?_⟩ <;> simp [procArts]
  | cons a rest ih =>
    intro i
    by_cases hc : a.convertOk = false
    · have hunf : (procArts ai n (a :: rest) i).1 =
          [(stageName i n, fileProgress i n)] := by
        simp [procArts, hc]
      refine ⟨?_, ?_, ?_⟩
      · intro ev hev
        rw [hunf] at hev
        simp only [List.mem_singleton] at hev
        exact ⟨i, le_refl i, by simp, by rw [hev]⟩
      · rw [hunf]; exact List.chain'_singleton _
      · intro ev hev
        rw [hunf] at hev
        simp only [List.head?_cons, Option.mem_def, Option.some.injEq] at hev
        rw [← hev]
    · by_cases ht : (ai && a.transcribeOk = false) = true
      · have hunf : (procArts ai n (a :: rest) i).1 =
            [(stageName i n, fileProgress i n)] := by
          simp only [procArts]
          rw [if_neg hc, if_pos ht]
        refine ⟨?_, ?_, ?_⟩
        · intro ev hev
          rw [hunf] at hev
          simp only [List.mem_singleton] at hev
          exact ⟨i, le_refl i, by simp, by rw [hev]⟩
        · rw [hunf]; exact List.chain'_singleton _
        · intro ev hev
          rw [hunf] at hev
          simp only [List.head?_cons, Option.mem_def, Option.some.injEq] at hev
          rw [← hev]
      · obtain ⟨ihmem, ihchain, ihhead⟩ := ih (i + 1)
        have hunf : (procArts ai n (a :: rest) i).1 =
            (stageName i n, fileProgress i n) :: (procArts ai n rest (i + 1)).1 := by
          simp only [procArts]
          rw [if_neg hc, if_neg ht]
        refine ⟨?_, ?_, ?_⟩
        · intro ev hev
          rw [hunf] at hev
          rcases List.mem_cons.1 hev with h1 | h2
          · exact ⟨i, le_refl i, by simp, by rw [h1]⟩
          · obtain ⟨j, hj1, hj2, hj3⟩ := ihmem ev h2
            exact ⟨j, by omega, by simp only [List.length_cons]; omega, hj3⟩
        · rw [hunf]
          refine List.chain'_cons'.2 ⟨?_, ihchain⟩
          intro y hy
          have hy2 := ihhead y hy
          simp only [hy2]
          exact fileProgress_mono n (Nat.le_succ i)
        · intro ev hev
          rw [hunf] at hev
          simp only [List.head?_cons, Option.mem_def, Option.some.injEq] at hev
          rw [← hev]

/-- C1 (amended): ending a session always writes `ended` first (via
`end_call_session`); when uploaded artifacts exist and the AI service is
configured it then writes `processing`, and the background run finally
writes `ended` again — on success and on failure alike.  No `failed` status
exists, the terminal status is always `ended`, and a session with no
artifacts (or no AI service) goes directly `active, ended`.  The write
sequence for an artifact-carrying session is therefore
`active, ended, processing, ended`, not `active, processing, ended`. -/
theorem C1_status_writes (cfg : RunConfig) :
    sessionStatusTrace cfg =
      [CallStatus.active, CallStatus.ended] ++
        (if cfg.arts ≠ [] ∧ cfg.ai then [CallStatus.processing, CallStatus.ended] else []) ∧
    (sessionStatusTrace cfg).getLast? = some CallStatus.ended := by
  have hw := runPipeline_statusWrites cfg
  constructor
  · unfold sessionStatusTrace
    rw [hw]
  · unfold sessionStatusTrace
    rw [hw]
    by_cases h : cfg.arts ≠ [] ∧ cfg.ai
    · rw [if_pos h]; rfl
    · rw [if_neg h]; rfl

/-- C3 (amended): within one run of `process_call_audio_after_end`, every
emitted progress fraction lies in `[0, 1]`, the final event is exactly
`("completed", 1.0)` or `("error", 0.0)`, and the fractions are
non-decreasing over the whole run **except** for a final `("error", 0.0)`
event, which resets the fraction to `0`: the sequence without its last
event is always non-decreasing, and a run that ends in
`("completed", 1.0)` is non-decreasing throughout.  (Per-file fractions
rise from 0.1 towards 0.7, `generating_summary` is 0.8, the sync stage —
named `syncing_crm` in the code — is 0.9, `completed` is 1.0.) -/
theorem C3_progress_fractions (cfg : RunConfig) :
    (∀ ev ∈ (runPipeline cfg).events, 0 ≤ ev.2 ∧ ev.2 ≤ 1) ∧
    ((runPipeline cfg).events.getLast? = some ("completed", 1) ∨
      (runPipeline cfg).events.getLast? = some ("error", 0)) ∧
    List.Chain' (fun a b : String × ℚ => a.2 ≤ b.2) (runPipeline cfg).events.dropLast ∧
    ((runPipeline cfg).events.getLast? = some ("completed", 1) →
      List.Chain' (fun a b : String × ℚ => a.2 ≤ b.2) (runPipeline cfg).events) := by
  obtain ⟨hmem, hchain, hhead⟩ := procArts_events cfg.ai cfg.arts.length cfg.arts 0
  set r := procArts cfg.ai cfg.arts.length cfg.arts 0 with hr
  -- facts about the initial event followed by the per-file events
  have hbound : ∀ ev ∈ r.1, (1 : ℚ)/10 ≤ ev.2 ∧ ev.2 ≤ 7/10 := by
    intro ev hev
    obtain ⟨j, _, hj2, hj3⟩ := hmem ev hev
    rw [hj3]
    exact ⟨fileProgress_lb j _, fileProgress_ub (by omega)⟩
  have hchain0 : List.Chain' (fun a b : String × ℚ => a.2 ≤ b.2)
      (("processing", (1 : ℚ)/10) :: r.1) := by
    refine List.chain'_cons'.2 ⟨?_, hchain⟩
    intro y hy
    have hy2 := hhead y hy
    simp only [hy2]
    exact fileProgress_lb 0 _
  have hbound0 : ∀ ev ∈ ("processing", (1 : ℚ)/10) :: r.1,
      (1 : ℚ)/10 ≤ ev.2 ∧ ev.2 ≤ 7/10 := by
    intro ev hev
    rcases List.mem_cons.1 hev with h1 | h2
    · rw [h1]; norm_num
    · exact hbound ev h2
  have hlast0 : ∀ ev ∈ (("processing", (1 : ℚ)/10) :: r.1).getLast?,
      (1 : ℚ)/10 ≤ ev.2 ∧ ev.2 ≤ 7/10 :=
    fun ev hev => hbound0 ev (List.mem_of_mem_getLast? hev)
  -- the generating_summary stage appended
  have hchain1 : List.Chain' (fun a b : String × ℚ => a.2 ≤ b.2)
      ((("processing", (1 : ℚ)/10) :: r.1) ++ [("generating_summary", (8 : ℚ)/10)]) := by
    refine List.chain'_append.2 ⟨hchain0, List.chain'_singleton _, ?_⟩
    intro x hx y hy
    simp only [List.head?_cons, Option.mem_def, Option.some.injEq] at hy
    rw [← hy]
    have := (hlast0 x hx).2
    simp only []
    linarith
  have hbound1 : ∀ ev ∈ (("processing", (1 : ℚ)/10) :: r.1) ++
      [("generating_summary", (8 : ℚ)/10)], 0 ≤ ev.2 ∧ ev.2 ≤ 1 := by
    intro ev hev
    rcases List.mem_append.1 hev with h1 | h2
    · have := hbound0 ev h1; constructor <;> linarith [this.1, this.2]
    · simp only [List.mem_singleton] at h2
      rw [h2]; norm_num
  have hlast1 : (("processing", (1 : ℚ)/10) :: r.1 ++
      [("generating_summary", (8 : ℚ)/10)]).getLast? =
      some ("generating_summary", (8 : ℚ)/10) := List.getLast?_concat _
  by_cases hok : r.2.2.2 = false
  -- error inside the per-artifact loop
  · have he : (runPipeline cfg).events =
        (("processing", (1 : ℚ)/10) :: r.1) ++ [("error", 0)] := by
      simp only [runPipeline, ← hr, hok, ite_true, if_pos]
    rw [he]
    refine ⟨?_, ?_, ?_, ?_⟩
    · intro ev hev
      rcases List.mem_append.1 hev with h1 | h2
      · have := hbound0 ev h1; constructor <;> linarith [this.1, this.2]
      · simp only [List.mem_singleton] at h2
        rw [h2]; norm_num
    · right; exact List.getLast?_concat _
    · rw [List.dropLast_concat]; exact hchain0
    · intro hcontr
      rw [List.getLast?_concat] at hcontr
      simp only [Option.some.injEq, Prod.mk.injEq] at hcontr
      exact absurd hcontr.1 (by decide)
  · have hok' : r.2.2.2 = true := by
      cases h : r.2.2.2
      · exact absurd h hok
      · rfl
    by_cases hgen : (cfg.ai && stripPy r.2.1 ≠ []) = true
    · by_cases hsum : cfg.summaryOk = false
      -- create_call_summary raises
      · have he : (runPipeline cfg).events =
            ((("processing", (1 : ℚ)/10) :: r.1) ++
              [("generating_summary", (8 : ℚ)/10)]) ++ [("error", 0)] := by
          simp only [runPipeline, ← hr, hok', hgen, hsum]
          norm_num
        rw [he]
        refine ⟨?_, ?_, ?_, ?_⟩
        · intro ev hev
          rcases List.mem_append.1 hev with h1 | h2
          · exact hbound1 ev h1
          · simp only [List.mem_singleton] at h2
            rw [h2]; norm_num
        · right; exact List.getLast?_concat _
        · rw [List.dropLast_concat]; exact hchain1
        · intro hcontr
          rw [List.getLast?_concat] at hcontr
          simp only [Option.some.injEq, Prod.mk.injEq] at hcontr
          exact absurd hcontr.1 (by decide)
      · by_cases hana : cfg.analyticsOk = false
        -- create_call_analytics raises
        · have he : (runPipeline cfg).events =
              ((("processing", (1 : ℚ)/10) :: r.1) ++
                [("generating_summary", (8 : ℚ)/10)]) ++ [("error", 0)] := by
            simp only [runPipeline, ← hr, hok', hgen, hsum, hana]
            norm_num
          rw [he]
          refine ⟨?_, ?_, ?_, ?_⟩
          · intro ev hev
            rcases List.mem_append.1 hev with h1 | h2
            · exact hbound1 ev h1
            · simp only [List.mem_singleton] at h2
              rw [h2]; norm_num
          · right; exact List.getLast?_concat _
          · rw [List.dropLast_concat]; exact hchain1
          · intro hcontr
            rw [List.getLast?_concat] at hcontr
            simp only [Option.some.injEq, Prod.mk.injEq] at hcontr
            exact absurd hcontr.1 (by decide)
        -- full success including CRM sync
        · have he : (runPipeline cfg).events =
              (((("processing", (1 : ℚ)/10) :: r.1) ++
                [("generating_summary", (8 : ℚ)/10)]) ++
                  [("syncing_crm", (9 : ℚ)/10)]) ++ [("completed", 1)] := by
            simp only [runPipeline, ← hr, hok', hgen, hsum, hana]
            norm_num
          have hchain2 : List.Chain' (fun a b : String × ℚ => a.2 ≤ b.2)
              (((("processing", (1 : ℚ)/10) :: r.1) ++
                [("generating_summary", (8 : ℚ)/10)]) ++
                  [("syncing_crm", (9 : ℚ)/10)]) := by
            refine List.chain'_append.2 ⟨hchain1, List.chain'_singleton _, ?_⟩
            intro x hx y hy
            simp only [List.head?_cons, Option.mem_def, Option.some.injEq] at hy
            rw [hlast1] at hx
            simp only [Option.mem_def, Option.some.injEq] at hx
            rw [← hy, ← hx]
            norm_num
          have hchain3 : List.Chain' (fun a b : String × ℚ => a.2 ≤ b.2)
              (((("processing", (1 : ℚ)/10) :: r.1) ++
                [("generating_summary", (8 : ℚ)/10)]) ++
                  [("syncing_crm", (9 : ℚ)/10)] ++ [("completed", (1 : ℚ))]) := by
            refine List.chain'_append.2 ⟨hchain2, List.chain'_singleton _, ?_⟩
            intro x hx y hy
            simp only [List.head?_cons, Option.mem_def, Option.some.injEq] at hy
            rw [List.getLast?_concat] at hx
            simp only [Option.mem_def, Option.some.injEq] at hx
            rw [← hy, ← hx]
            norm_num
          rw [he]
          refine ⟨?_, ?_, ?_, ?_⟩
          · intro ev hev
            rcases List.mem_append.1 hev with h1 | h2
            · rcases List.mem_append.1 h1 with h3 | h4
              · exact hbound1 ev h3
              · simp only [List.mem_singleton] at h4
                rw [h4]; norm_num
            · simp only [List.mem_singleton] at h2
              rw [h2]; norm_num
          · left; exact List.getLast?_concat _
          · rw [List.dropLast_concat]; exact hchain2
          · intro _; exact hchain3
    -- AI missing or transcript empty: summary skipped, straight to completed
    · have he : (runPipeline cfg).events =
          ((("processing", (1 : ℚ)/10) :: r.1) ++
            [("generating_summary", (8 : ℚ)/10)]) ++ [("completed", 1)] := by
        simp only [runPipeline, ← hr, hok', hgen]
        norm_num
      have hchainC : List.Chain' (fun a b : String × ℚ => a.2 ≤ b.2)
          (((("processing", (1 : ℚ)/10) :: r.1) ++
            [("generating_summary", (8 : ℚ)/10)]) ++ [("completed", (1 : ℚ))]) := by
        refine List.chain'_append.2 ⟨hchain1, List.chain'_singleton _, ?_⟩
        intro x hx y hy
        simp only [List.head?_cons, Option.mem_def, Option.some.injEq] at hy
        rw [hlast1] at hx
        simp only [Option.mem_def, Option.some.injEq] at hx
        rw [← hy, ← hx]
        norm_num
      rw [he]
      refine ⟨?_, ?_, ?_, ?_⟩
      · intro ev hev
        rcases List.mem_append.1 hev with h1 | h2
        · exact hbound1 ev h1
        · simp only [List.mem_singleton] at h2
          rw [h2]; norm_num
      · left; exact List.getLast?_concat _
      · rw [List.dropLast_concat]; exact hchain1
      · intro _; exact hchainC

/-- Witness for C3: a concrete completed run (no artifacts, no AI) emits
`0.1, 0.8, 1.0` and is non-decreasing throughout. -/
theorem C3_progress_fractions_witness :
    List.Chain' (fun a b : String × ℚ => a.2 ≤ b.2)
      (runPipeline { arts := [], ai := false, summaryOk := true,
                     analyticsOk := true }).events :=
  (C3_progress_fractions
    { arts := [], ai := false, summaryOk := true, analyticsOk := true }).2.2.2 rfl

/-! ### Helper lemmas for the transcript-concatenation claim -/

/-- The loop's success flag is true exactly when no artifact raised. -/
theorem procArts_ok_iff (ai : Bool) (n : ℕ) :
    ∀ (arts : List Artifact) (i : ℕ),
      (procArts ai n arts i).2.2.2 = true ↔
        ∀ a ∈ arts, a.convertOk = true ∧ (ai = true → a.transcribeOk = true) := by
  intro arts
  induction arts with
  | nil => intro i; simp [procArts]
  | cons a rest ih =>
    intro i
    by_cases hc : a.convertOk = false
    · have hunf : (procArts ai n (a :: rest) i).2.2.2 = false := by
        simp [procArts, hc]
      rw [hunf]
      constructor
      · intro h; exact absurd h (by decide)
      · intro h
        have h1 := (h a (List.mem_cons_self a rest)).1
        rw [hc] at h1
        exact absurd h1 (by decide)
    · have hct : a.convertOk = true := by
        cases h' : a.convertOk
        · exact absurd h' hc
        · rfl
      by_cases ht : (ai && a.transcribeOk = false) = true
      · obtain ⟨hai, htr⟩ := Bool.and_eq_true_iff.1 ht
        have htr' : a.transcribeOk = false := of_decide_eq_true htr
        have hunf : (procArts ai n (a :: rest) i).2.2.2 = false := by
          simp only [procArts]
          rw [if_neg hc, if_pos ht]
        rw [hunf]
        constructor
        · intro h; exact absurd h (by decide)
        · intro h
          have h1 := (h a (List.mem_cons_self a rest)).2 hai
          rw [htr'] at h1
          exact absurd h1 (by decide)
      · have hunf : (procArts ai n (a :: rest) i).2.2.2 =
            (procArts ai n rest (i + 1)).2.2.2 := by
          simp only [procArts]
          rw [if_neg hc, if_neg ht]
        rw [hunf, ih (i + 1)]
        constructor
        · intro h b hb
          rcases List.mem_cons.1 hb with h1 | h2
          · rw [h1]
            refine ⟨hct, ?_⟩
            intro hai2
            cases h' : a.transcribeOk
            · exact absurd (by rw [hai2, h']; rfl) ht
            · rfl
          · exact h b h2
        · intro h b hb
          exact h b (List.mem_cons_of_mem a hb)

/-- When every artifact succeeds (with the AI service configured), the
accumulated transcript is exactly each nonempty per-file text prefixed by
one space, in upload order. -/
theorem procArts_text (n : ℕ) :
    ∀ (arts : List Artifact) (i : ℕ),
      (∀ a ∈ arts, a.convertOk = true ∧ a.transcribeOk = true) →
      (procArts true n arts i).2.1 =
        spacedConcat ((arts.map (fun a => a.text)).filter (fun t => t ≠ [])) := by
  intro arts
  induction arts with
  | nil => intro i _; rfl
  | cons a rest ih =>
    intro i hok
    have hct := (hok a (List.mem_cons_self a rest)).1
    have htr := (hok a (List.mem_cons_self a rest)).2
    have hc : ¬ a.convertOk = false := by rw [hct]; decide
    have ht : ¬ ((true && a.transcribeOk = false) = true) := by
      rw [htr]; decide
    have hunf : (procArts true n (a :: rest) i).2.1 =
        (if (true && a.text ≠ []) = true then ' ' :: a.text else []) ++
          (procArts true n rest (i + 1)).2.1 := by
      simp only [procArts]
      rw [if_neg hc, if_neg ht]
    rw [hunf, ih (i + 1) (fun b hb => hok b (List.mem_cons_of_mem a hb))]
    by_cases hta : a.text = []
    · simp [hta, spacedConcat]
    · have h1 : (true && a.text ≠ []) = true := by
        simp [hta]
      rw [if_pos h1]
      simp [hta, spacedConcat]

/-- A list whose head is not whitespace survives `dropWhile isWhitespace`. -/
theorem dropWhile_ws_head (l : List Char)
    (h : l.head?.all (fun c => !c.isWhitespace) = true) :
    l.dropWhile Char.isWhitespace = l := by
  cases l with
  | nil => rfl
  | cons c cs =>
    simp only [List.head?_cons, Option.all_some] at h
    rw [List.dropWhile_cons, if_neg]
    rw [Bool.not_eq_true'] at h
    simp [h]

/-- `strip` of one leading space followed by a text with clean edges is
that text. -/
theorem stripPy_space_cons (m : List Char)
    (hh : m.head?.all (fun c => !c.isWhitespace) = true)
    (hl : m.getLast?.all (fun c => !c.isWhitespace) = true) :
    stripPy (' ' :: m) = m := by
  unfold stripPy
  have h1 : (' ' :: m).dropWhile Char.isWhitespace = m.dropWhile Char.isWhitespace := by
    rw [List.dropWhile_cons, if_pos]
    decide
  rw [h1, dropWhile_ws_head m hh]
  have h2 : m.reverse.dropWhile Char.isWhitespace = m.reverse := by
    apply dropWhile_ws_head
    rw [List.head?_reverse]
    exact hl
  rw [h2, List.reverse_reverse]

/-- The spaced concatenation of a nonempty list of texts is a single space
followed by the space-joined texts. -/
theorem spacedConcat_cons_eq (ts : List (List Char)) (h : ts ≠ []) :
    spacedConcat ts = ' ' :: joinSpace ts := by
  induction ts with
  | nil => exact absurd rfl h
  | cons t ts ih =>
    cases ts with
    | nil => simp [spacedConcat, joinSpace]
    | cons u us =>
      have : spacedConcat (t :: u :: us) = (' ' :: t) ++ spacedConcat (u :: us) := rfl
      rw [this, ih (by simp)]
      simp [joinSpace]

theorem joinSpace_ne_nil (t : List Char) (ts : List (List Char)) (h : t ≠ []) :
    joinSpace (t :: ts) ≠ [] := by
  cases ts with
  | nil => simpa [joinSpace] using h
  | cons u us =>
    show t ++ ' ' :: joinSpace (u :: us) ≠ []
    simp

/-- The space-join of nonempty clean-edged texts has clean edges. -/
theorem joinSpace_noEdgeWS (ts : List (List Char)) (hne : ∀ t ∈ ts, t ≠ [])
    (hed : ∀ t ∈ ts, noEdgeWS t) : noEdgeWS (joinSpace ts) := by
  induction ts with
  | nil => exact ⟨rfl, rfl⟩
  | cons t ts ih =>
    cases ts with
    | nil => exact hed t (List.mem_cons_self t [])
    | cons u us =>
      have hj : joinSpace (t :: u :: us) = t ++ ' ' :: joinSpace (u :: us) := rfl
      have htne := hne t (List.mem_cons_self t _)
      have hted := hed t (List.mem_cons_self t _)
      have ihr : noEdgeWS (joinSpace (u :: us)) := by
        apply ih
        · intro v hv; exact hne v (List.mem_cons_of_mem t hv)
        · intro v hv; exact hed v (List.mem_cons_of_mem t hv)
      constructor
      · rw [hj]
        cases t with
        | nil => exact absurd rfl htne
        | cons c cs =>
          simpa using hted.1
      · rw [hj]
        rw [@List.getLast?_append_of_ne_nil _ t (' ' :: joinSpace (u :: us)) (by simp)]
        have hjne : joinSpace (u :: us) ≠ [] :=
          joinSpace_ne_nil u us (hne u (List.mem_cons_of_mem t (List.mem_cons_self u us)))
        rw [show (' ' :: joinSpace (u :: us)).getLast? = (joinSpace (u :: us)).getLast? by
          rw [show (' ' :: joinSpace (u :: us)) = [' '] ++ joinSpace (u :: us) by rfl]
          exact @List.getLast?_append_of_ne_nil _ [' '] (joinSpace (u :: us)) hjne]
        exact ihr.2

/-- C2 (amended): there is no per-artifact failure guard.  When every
artifact converts and transcribes successfully, the persisted Transcript is
the space-join, in upload order, of exactly the artifacts' nonempty
transcript texts (`none` when all are empty, since extraction is skipped).
But when any artifact fails to convert or transcribe, the exception aborts
the whole run: no Transcript or summary is persisted, the run's last event
is `("error", 0.0)`, and the session is still written `ended`. -/
theorem C2_concat_or_abort (cfg : RunConfig) (hai : cfg.ai = true)
    (hsum : cfg.summaryOk = true)
    (hedge : ∀ a ∈ cfg.arts, noEdgeWS a.text) :
    ((∀ a ∈ cfg.arts, a.convertOk = true ∧ a.transcribeOk = true) →
      (runPipeline cfg).summary? =
        (if ((cfg.arts.map (fun a => a.text)).filter (fun t => t ≠ [])) = [] then none
         else some (joinSpace ((cfg.arts.map (fun a => a.text)).filter (fun t => t ≠ []))))) ∧
    ((∃ a ∈ cfg.arts, ¬(a.convertOk = true ∧ a.transcribeOk = true)) →
      (runPipeline cfg).summary? = none ∧
      (runPipeline cfg).events.getLast? = some ("error", 0) ∧
      (runPipeline cfg).statusWrites = [CallStatus.ended]) := by
  constructor
  · intro hok
    have hflag : (procArts cfg.ai cfg.arts.length cfg.arts 0).2.2.2 = true := by
      rw [procArts_ok_iff]
      intro a ha
      exact ⟨(hok a ha).1, fun _ => (hok a ha).2⟩
    have htext : (procArts cfg.ai cfg.arts.length cfg.arts 0).2.1 =
        spacedConcat ((cfg.arts.map (fun a => a.text)).filter (fun t => t ≠ [])) := by
      rw [hai]
      exact procArts_text cfg.arts.length cfg.arts 0 hok
    set good := (cfg.arts.map (fun a => a.text)).filter (fun t => t ≠ []) with hgood
    by_cases hg : good = []
    · -- nothing transcribed: summary generation is skipped
      have htfin : stripPy (procArts cfg.ai cfg.arts.length cfg.arts 0).2.1 = [] := by
        rw [htext, hg]; rfl
      have hcond : (cfg.ai && stripPy (procArts cfg.ai cfg.arts.length cfg.arts 0).2.1 ≠ []) =
          false := by
        rw [htfin]; simp
      rw [if_pos hg]
      simp only [runPipeline, hflag, hcond]
      norm_num
    · -- the good texts are nonempty with clean edges
      have hmem : ∀ t ∈ good, t ≠ [] ∧ noEdgeWS t := by
        intro t htm
        rw [hgood] at htm
        have h1 := List.of_mem_filter htm
        have h2 := List.mem_of_mem_filter htm
        obtain ⟨a, ha, hat⟩ := List.mem_map.1 h2
        refine ⟨of_decide_eq_true h1, ?_⟩
        rw [← hat]
        exact hedge a ha
      have hjoin : stripPy (spacedConcat good) = joinSpace good := by
        rw [spacedConcat_cons_eq good hg]
        have hje : noEdgeWS (joinSpace good) :=
          joinSpace_noEdgeWS good (fun t ht => (hmem t ht).1) (fun t ht => (hmem t ht).2)
        exact stripPy_space_cons _ hje.1 hje.2
      have hjne : joinSpace good ≠ [] := by
        cases hgd : good with
        | nil => exact absurd hgd hg
        | cons t ts =>
          have ht1 : t ∈ good := by rw [hgd]; exact List.mem_cons_self t ts
          exact joinSpace_ne_nil t ts (hmem t ht1).1
      have htfin : stripPy (procArts cfg.ai cfg.arts.length cfg.arts 0).2.1 =
          joinSpace good := by rw [htext]; exact hjoin
      have hcond : (cfg.ai && stripPy (procArts cfg.ai cfg.arts.length cfg.arts 0).2.1 ≠ []) =
          true := by
        rw [htfin, hai]
        simp [hjne]
      rw [if_neg hg]
      by_cases hana : cfg.analyticsOk = false
      · simp only [runPipeline, hflag, hcond, hsum, hana]
        norm_num [htfin]
      · have hana' : cfg.analyticsOk = true := by
          cases h' : cfg.analyticsOk
          · exact absurd h' hana
          · rfl
        simp only [runPipeline, hflag, hcond, hsum, hana']
        norm_num [htfin]
  · intro hbad
    have hflag : (procArts cfg.ai cfg.arts.length cfg.arts 0).2.2.2 = false := by
      cases hf : (procArts cfg.ai cfg.arts.length cfg.arts 0).2.2.2
      · rfl
      · exfalso
        obtain ⟨a, ha, hna⟩ := hbad
        have := (procArts_ok_iff cfg.ai cfg.arts.length cfg.arts 0).1 hf a ha
        exact hna ⟨this.1, this.2 hai⟩
    have he : (runPipeline cfg).events =
        (("processing", (1 : ℚ)/10) :: (procArts cfg.ai cfg.arts.length cfg.arts 0).1) ++
          [("error", 0)] := by
      simp only [runPipeline, hflag, ite_true, if_pos]
    refine ⟨?_, ?_, runPipeline_statusWrites cfg⟩
    · simp only [runPipeline, hflag]
      norm_num
    · rw [he]
      exact List.getLast?_concat _

/-- Witness for C2: a concrete all-success run over three artifacts (the
second recognized no speech) persists exactly `"hi yo"`. -/
theorem C2_concat_or_abort_witness :
    (runPipeline
        { arts := [{ convertOk := true, transcribeOk := true, duration := 1,
                     text := ['h', 'i'] },
                   { convertOk := true, transcribeOk := true, duration := 1,
                     text := [] },
                   { convertOk := true, transcribeOk := true, duration := 1,
                     text := ['y', 'o'] }],
          ai := true, summaryOk := true, analyticsOk := true }).summary? =
      some ['h', 'i', ' ', 'y', 'o'] := by
  have h := (C2_concat_or_abort
      { arts := [{ convertOk := true, transcribeOk := true, duration := 1,
                   text := ['h', 'i'] },
                 { convertOk := true, transcribeOk := true, duration := 1,
                   text := [] },
                 { convertOk := true, transcribeOk := true, duration := 1,
                   text := ['y', 'o'] }],
        ai := true, summaryOk := true, analyticsOk := true }
      rfl rfl (by decide)).1 (by decide)
  rw [h]
  decide

/-! ### Helper lemmas for the speech-segment claim -/

/-- Invariant of the frame loop: every produced segment is ordered, bounded
by the last frame time, and longer than 0.1 s unless it is the trailing
segment closed at the clip's end; segments are pairwise disjoint in time
order, and the first produced segment starts no earlier than the loop's
current lower bound. -/
theorem segLoop_spec (lastT : ℚ) :
    ∀ (frames : List (ℚ × Bool)) (inS : Bool) (start lb : ℚ),
      0 ≤ lb →
      (inS = true → 0 ≤ start ∧ start ≤ lb) →
      (∀ t ∈ frames.map Prod.fst, lb ≤ t ∧ t ≤ lastT) →
      List.Pairwise (· ≤ ·) (frames.map Prod.fst) →
      lb ≤ lastT →
      (∀ p ∈ segLoop frames inS start lastT,
          0 ≤ p.1 ∧ p.1 ≤ p.2 ∧ p.2 ≤ lastT ∧
            ((1 : ℚ)/10 < p.2 - p.1 ∨ p.2 = lastT)) ∧
      List.Chain' (fun p q : ℚ × ℚ => p.2 ≤ q.1) (segLoop frames inS start lastT) ∧
      (∀ p ∈ (segLoop frames inS start lastT).head?,
        (if inS = true then start else lb) ≤ p.1) := by
  intro frames
  induction frames with
  | nil =>
    intro inS start lb hlb hstart hmem hpw hlbT
    cases inS with
    | false => refine ⟨?_, ?_, ?_⟩ <;> simp [segLoop]
    | true =>
      obtain ⟨hs0, hsl⟩ := hstart rfl
      refine ⟨?_, ?_, ?_⟩
      · intro p hp
        simp only [segLoop, if_pos, List.mem_singleton] at hp
        rw [hp]
        exact ⟨hs0, le_trans hsl hlbT, le_refl _, Or.inr rfl⟩
      · simp only [segLoop]
        exact List.chain'_singleton _
      · intro p hp
        simp only [segLoop, if_pos, List.head?_cons, Option.mem_def,
          Option.some.injEq] at hp
        rw [← hp, if_pos rfl]
  | cons f rest ih =>
    obtain ⟨t, sp⟩ := f
    intro inS start lb hlb hstart hmem hpw hlbT
    have hmt : lb ≤ t ∧ t ≤ lastT := hmem t (by simp)
    have hpwc : List.Pairwise (· ≤ ·) (t :: rest.map Prod.fst) := by
      rw [List.map_cons] at hpw
      exact hpw
    have hmem' : ∀ u ∈ rest.map Prod.fst, t ≤ u ∧ u ≤ lastT := by
      intro u hu
      refine ⟨?_, (hmem u (by simp [hu])).2⟩
      exact (List.pairwise_cons.1 hpwc).1 u hu
    have hpw' : List.Pairwise (· ≤ ·) (rest.map Prod.fst) :=
      (List.pairwise_cons.1 hpwc).2
    by_cases h1 : (sp && !inS) = true
    · -- a speech segment opens at this frame
      have hseg : segLoop ((t, sp) :: rest) inS start lastT =
          segLoop rest true t lastT := by
        simp only [segLoop]
        rw [if_pos h1]
      have hinS : inS = false := by
        rcases Bool.and_eq_true_iff.1 h1 with ⟨_, h⟩
        cases inS
        · rfl
        · exact absurd h (by decide)
      have h0t : (0 : ℚ) ≤ t := le_trans hlb hmt.1
      obtain ⟨ih1, ih2, ih3⟩ :=
        ih true t t h0t (fun _ => ⟨h0t, le_refl t⟩) hmem' hpw' hmt.2
      rw [hseg]
      refine ⟨ih1, ih2, ?_⟩
      intro p hp
      have hit := ih3 p hp
      rw [ite_self] at hit
      rw [hinS, if_neg (show ¬ (false = true) by decide)]
      exact le_trans hmt.1 hit
    · by_cases h2 : (!sp && inS) = true
      · -- the open segment closes at this frame
        have hseg : segLoop ((t, sp) :: rest) inS start lastT =
            (if t - start > 1/10 then [(start, t)] else []) ++
              segLoop rest false start lastT := by
          simp only [segLoop]
          rw [if_neg h1, if_pos h2]
        have hinS : inS = true := by
          rcases Bool.and_eq_true_iff.1 h2 with ⟨_, h⟩
          exact h
        obtain ⟨hs0, hsl⟩ := hstart hinS
        have h0t : (0 : ℚ) ≤ t := le_trans hlb hmt.1
        obtain ⟨ih1, ih2, ih3⟩ :=
          ih false start t h0t (fun h => absurd h (by decide)) hmem' hpw' hmt.2
        rw [hseg]
        by_cases hlen : t - start > 1/10
        · rw [if_pos hlen]
          refine ⟨?_, ?_, ?_⟩
          · intro p hp
            rcases List.mem_cons.1 hp with hp1 | hp2
            · rw [hp1]
              exact ⟨hs0, le_trans hsl hmt.1, hmt.2, Or.inl hlen⟩
            · exact ih1 p hp2
          · refine List.chain'_cons'.2 ⟨?_, ih2⟩
            intro q hq
            have := ih3 q hq
            rw [if_neg (by decide)] at this
            exact this
          · intro p hp
            simp only [List.singleton_append, List.head?_cons, Option.mem_def,
              Option.some.injEq] at hp
            rw [← hp, hinS, if_pos rfl]
        · rw [if_neg hlen, List.nil_append]
          refine ⟨ih1, ih2, ?_⟩
          intro p hp
          have hit := ih3 p hp
          rw [if_neg (show ¬ (false = true) by decide)] at hit
          rw [hinS, if_pos rfl]
          exact le_trans (le_trans hsl hmt.1) hit
      · -- no state change at this frame
        have hseg : segLoop ((t, sp) :: rest) inS start lastT =
            segLoop rest inS start lastT := by
          simp only [segLoop]
          rw [if_neg h1, if_neg h2]
        have hstart' : inS = true → 0 ≤ start ∧ start ≤ t := by
          intro h
          obtain ⟨hs0, hsl⟩ := hstart h
          exact ⟨hs0, le_trans hsl hmt.1⟩
        have h0t : (0 : ℚ) ≤ t := le_trans hlb hmt.1
        obtain ⟨ih1, ih2, ih3⟩ := ih inS start t h0t hstart' hmem' hpw' hmt.2
        rw [hseg]
        refine ⟨ih1, ih2, ?_⟩
        intro p hp
        have hit := ih3 p hp
        cases hin : inS with
        | true =>
          rw [hin] at hit
          rw [if_pos rfl] at hit ⊢
          exact hit
        | false =>
          rw [hin] at hit
          rw [if_neg (by decide)] at hit ⊢
          exact le_trans hmt.1 hit

/-- Disjoint ordered segments inside `[lo, hi]` have total length at most
`hi - lo`. -/
theorem sumSegments_le (hi : ℚ) :
    ∀ (L : List (ℚ × ℚ)) (lo : ℚ),
      List.Chain' (fun p q : ℚ × ℚ => p.2 ≤ q.1) L →
      (∀ p ∈ L, p.1 ≤ p.2 ∧ p.2 ≤ hi) →
      (∀ p ∈ L.head?, lo ≤ p.1) →
      lo ≤ hi →
      (L.map (fun p => p.2 - p.1)).sum ≤ hi - lo := by
  intro L
  induction L with
  | nil =>
    intro lo _ _ _ hlohi
    simp
    linarith
  | cons p L ihL =>
    intro lo hchain hbnd hhead hlohi
    have hp := hbnd p (List.mem_cons_self p L)
    have hlop : lo ≤ p.1 := hhead p (by simp)
    have hch := List.chain'_cons'.1 hchain
    have hrest : (L.map (fun p => p.2 - p.1)).sum ≤ hi - p.2 := by
      apply ihL p.2 hch.2
      · intro q hq; exact hbnd q (List.mem_cons_of_mem p hq)
      · exact hch.1
      · exact hp.2
    simp only [List.map_cons, List.sum_cons]
    linarith

theorem timeQ_mono {i j : ℕ} (h : i ≤ j) :
    (((i * 512 : ℕ) : ℚ)) / 16000 ≤ (((j * 512 : ℕ) : ℚ)) / 16000 := by
  have hc : ((i * 512 : ℕ) : ℚ) ≤ ((j * 512 : ℕ) : ℚ) := by
    exact_mod_cast Nat.mul_le_mul_right 512 h
  have h16 : (0 : ℚ) < 16000 := by norm_num
  rw [div_le_div_iff₀ h16 h16]
  nlinarith

/-- C5 (amended): for every successfully analysed waveform (`N` samples at
16 kHz, RMS frames `rms` with librosa's frame count `1 + N / 512`), the
silence ratio lies in `[0, 1]` and the speech segments are ordered and
disjoint with `0 ≤ s ≤ e ≤ d`; every segment is strictly longer than 0.1 s
**except possibly the trailing one closed at the clip's last frame time**,
which bypasses the minimum-length check and may be arbitrarily short, even
with `s = e`. -/
theorem C5_segment_bounds (N : ℕ) (rms : List ℚ)
    (hlen : rms.length = 1 + N / 512) (hN : 0 < N) :
    ∃ A, analyzeAudioProperties N rms 512 16000 = some A ∧
      (0 ≤ A.silenceRatio ∧ A.silenceRatio ≤ 1) ∧
      List.Chain' (fun p q : ℚ × ℚ => p.2 ≤ q.1) A.speechSegments ∧
      (∀ p ∈ A.speechSegments,
        0 ≤ p.1 ∧ p.1 ≤ p.2 ∧ p.2 ≤ A.duration ∧
          ((1 : ℚ)/10 < p.2 - p.1 ∨
            p.2 = (((rms.length - 1) * 512 : ℕ) : ℚ) / 16000)) := by
  have hdurpos : (0 : ℚ) < (N : ℚ) / 16000 := by positivity
  have hdur : ¬ ((N : ℚ) / 16000 = 0) := ne_of_gt hdurpos
  set lastT : ℚ := (((rms.length - 1) * 512 : ℕ) : ℚ) / 16000 with hlastT
  have hlastT0 : (0 : ℚ) ≤ lastT := by positivity
  -- the frame times are sorted, nonnegative and bounded by the last time
  have hmapfst : (speechFrames rms 512 16000).map Prod.fst =
      (List.range rms.length).map (fun i => (((i * 512 : ℕ) : ℚ)) / 16000) := by
    simp only [speechFrames, List.map_map]
    rfl
  have hpw : List.Pairwise (· ≤ ·) ((speechFrames rms 512 16000).map Prod.fst) := by
    rw [hmapfst]
    apply List.Pairwise.map
    · intro i j hij
      exact timeQ_mono (le_of_lt hij)
    · exact List.pairwise_lt_range rms.length
  have hmem : ∀ u ∈ (speechFrames rms 512 16000).map Prod.fst,
      (0 : ℚ) ≤ u ∧ u ≤ lastT := by
    rw [hmapfst]
    intro u hu
    obtain ⟨i, hi, hiu⟩ := List.mem_map.1 hu
    have hirange := List.mem_range.1 hi
    constructor
    · rw [← hiu]
      exact div_nonneg (Nat.cast_nonneg _) (by norm_num)
    · rw [← hiu, hlastT]
      exact timeQ_mono (by omega)
  obtain ⟨h1, h2, _⟩ := segLoop_spec lastT (speechFrames rms 512 16000) false 0 0
    (le_refl 0) (fun h => absurd h (by decide)) hmem hpw hlastT0
  have hdet : detectSpeechSegments rms 512 16000 =
      segLoop (speechFrames rms 512 16000) false 0 lastT := rfl
  rw [← hdet] at h1 h2
  -- total speech time is within [0, duration]
  have hsum_le : ((detectSpeechSegments rms 512 16000).map
      (fun p => p.2 - p.1)).sum ≤ lastT - 0 := by
    apply sumSegments_le lastT _ 0 h2
    · intro p hp
      obtain ⟨_, hb, hc, _⟩ := h1 p hp
      exact ⟨hb, hc⟩
    · intro p hp
      exact (h1 p (List.mem_of_mem_head? hp)).1
    · exact hlastT0
  have hsum_nonneg : (0 : ℚ) ≤ ((detectSpeechSegments rms 512 16000).map
      (fun p => p.2 - p.1)).sum := by
    apply List.sum_nonneg
    intro x hx
    obtain ⟨p, hp, hpx⟩ := List.mem_map.1 hx
    obtain ⟨_, hb, _, _⟩ := h1 p hp
    rw [← hpx]
    linarith
  have hlast_le_dur : lastT ≤ (N : ℚ) / 16000 := by
    rw [hlastT]
    have hnat : (rms.length - 1) * 512 ≤ N := by
      rw [hlen]
      simpa using Nat.div_mul_le_self N 512
    have hc : (((rms.length - 1) * 512 : ℕ) : ℚ) ≤ (N : ℚ) := by exact_mod_cast hnat
    have h16 : (0 : ℚ) < 16000 := by norm_num
    rw [div_le_div_iff₀ h16 h16]
    nlinarith
  refine ⟨{ duration := (N : ℚ) / 16000,
            speechSegments := detectSpeechSegments rms 512 16000,
            totalSpeechTime := ((detectSpeechSegments rms 512 16000).map
              (fun p => p.2 - p.1)).sum,
            silenceRatio := 1 - ((detectSpeechSegments rms 512 16000).map
              (fun p => p.2 - p.1)).sum / ((N : ℚ) / 16000) }, ?_, ?_, h2, ?_⟩
  · simp only [analyzeAudioProperties, Nat.cast_ofNat]
    rw [if_neg hdur]
  · constructor
    · have hratio : ((detectSpeechSegments rms 512 16000).map
          (fun p => p.2 - p.1)).sum / ((N : ℚ) / 16000) ≤ 1 := by
        rw [div_le_one hdurpos]
        linarith
      simp only []
      linarith
    · have hratio0 : (0 : ℚ) ≤ ((detectSpeechSegments rms 512 16000).map
          (fun p => p.2 - p.1)).sum / ((N : ℚ) / 16000) :=
        div_nonneg hsum_nonneg (le_of_lt hdurpos)
      simp only []
      linarith
  · intro p hp
    obtain ⟨ha, hb, hc, hd⟩ := h1 p hp
    exact ⟨ha, hb, le_trans hc hlast_le_dur, hd⟩

/-! ### Helper lemmas for the insight-validation claim -/

theorem jget_jset_same (fs : List (String × JValue)) (k : String) (v : JValue) :
    jget (jset fs k v) k = some v := by
  induction fs with
  | nil => simp [jset, jget]
  | cons p fs ih =>
    obtain ⟨k', v'⟩ := p
    by_cases h : k' = k
    · simp [jset, jget, h]
    · simp [jset, jget, h, ih]

theorem jget_jset_ne (fs : List (String × JValue)) (k k' : String) (v : JValue)
    (h : k ≠ k') : jget (jset fs k v) k' = jget fs k' := by
  induction fs with
  | nil => simp [jset, jget, h]
  | cons p fs ih =>
    obtain ⟨k'', v''⟩ := p
    by_cases h2 : k'' = k
    · subst h2
      simp [jset, jget, h]
    · simp only [jset, jget, if_neg h2]
      by_cases h3 : k'' = k'
      · simp [jget, h3]
      · simp [jget, h3, ih]

theorem enumOk_ext (fs gs : List (String × JValue)) (k : String) (aw : List String)
    (h : jget fs k = jget gs k) : enumOk fs k aw = enumOk gs k aw := by
  unfold enumOk
  rw [h]

theorem isListAt_ext (fs gs : List (String × JValue)) (k : String)
    (h : jget fs k = jget gs k) : isListAt fs k = isListAt gs k := by
  unfold isListAt
  rw [h]

theorem jget_fixEnum_ne (fs : List (String × JValue)) (k : String) (aw : List String)
    (d : String) (k' : String) (h : k ≠ k') :
    jget (fixEnum fs k aw d) k' = jget fs k' := by
  unfold fixEnum
  split
  · rfl
  · exact jget_jset_ne fs k k' _ h

theorem enumOk_fixEnum (fs : List (String × JValue)) (k : String) (aw : List String)
    (d : String) (hd : aw.contains d = true) :
    enumOk (fixEnum fs k aw d) k aw = true := by
  unfold fixEnum
  split
  · assumption
  · unfold enumOk
    rw [jget_jset_same]
    exact hd

theorem jget_fixList_ne (fs : List (String × JValue)) (k k' : String) (h : k ≠ k') :
    jget (fixList fs k) k' = jget fs k' := by
  unfold fixList
  split
  · rfl
  · exact jget_jset_ne fs k k' _ h

theorem isListAt_fixList (fs : List (String × JValue)) (k : String) :
    isListAt (fixList fs k) k = true := by
  unfold fixList
  split
  · assumption
  · unfold isListAt
    rw [jget_jset_same]

theorem jget_fixSummary_ne (fs : List (String × JValue)) (k' : String)
    (h : "summary" ≠ k') : jget (fixSummary fs) k' = jget fs k' := by
  unfold fixSummary
  split
  · rfl
  · exact jget_jset_ne fs "summary" k' _ h

theorem isListAt_fixSummary (fs : List (String × JValue)) :
    isListAt (fixSummary fs) "summary" = true := by
  unfold fixSummary
  split
  · assumption
  · unfold isListAt
    rw [jget_jset_same]

theorem jget_fixBool_ne (fs : List (String × JValue)) (k' : String)
    (h : "follow_up_required" ≠ k') : jget (fixBool fs) k' = jget fs k' := by
  unfold fixBool
  split
  · rfl
  · exact jget_jset_ne fs "follow_up_required" k' _ h

theorem boolOk_fixBool (fs : List (String × JValue)) :
    (match jget (fixBool fs) "follow_up_required" with
     | some (.jbool _) => true
     | _ => false) = true := by
  unfold fixBool
  cases hin : jget fs "follow_up_required" with
  | none => dsimp only; rw [jget_jset_same]
  | some v =>
    cases v with
    | jbool b => dsimp only; rw [hin]
    | jnull => dsimp only; rw [jget_jset_same]
    | jnum q => dsimp only; rw [jget_jset_same]
    | jstr s => dsimp only; rw [jget_jset_same]
    | jarr xs => dsimp only; rw [jget_jset_same]
    | jobj gs => dsimp only; rw [jget_jset_same]

/-- Every record the patch's validation block produces passes the
closed-set / list / boolean checks. -/
theorem patchValidate_valid (fs : List (String × JValue)) :
    insightValid (.jobj (patchValidate fs)) = true := by
  show insightValid (.jobj (fixBool (fixList (fixList (fixList (fixEnum (fixEnum
    (fixEnum (fixEnum (fixSummary fs)
      "resolution_status" ["resolved", "pending", "escalated"] "pending")
      "sentiment" ["positive", "neutral", "negative"] "neutral")
      "category" ["billing", "technical", "bundles", "complaints", "general_inquiry",
        "other"] "other")
      "priority" ["high", "medium", "low"] "medium")
      "action_items") "customer_requests") "tags"))) = true
  set g1 := fixSummary fs with hg1
  set g2 := fixEnum g1 "resolution_status" ["resolved", "pending", "escalated"]
    "pending" with hg2
  set g3 := fixEnum g2 "sentiment" ["positive", "neutral", "negative"] "neutral" with hg3
  set g4 := fixEnum g3 "category"
    ["billing", "technical", "bundles", "complaints", "general_inquiry", "other"]
    "other" with hg4
  set g5 := fixEnum g4 "priority" ["high", "medium", "low"] "medium" with hg5
  set g6 := fixList g5 "action_items" with hg6
  set g7 := fixList g6 "customer_requests" with hg7
  set g8 := fixList g7 "tags" with hg8
  set g9 := fixBool g8 with hg9
  have hs3 : jget g9 "sentiment" = jget g3 "sentiment" := by
    rw [hg9, jget_fixBool_ne g8 "sentiment" (by decide),
      hg8, jget_fixList_ne g7 "tags" "sentiment" (by decide),
      hg7, jget_fixList_ne g6 "customer_requests" "sentiment" (by decide),
      hg6, jget_fixList_ne g5 "action_items" "sentiment" (by decide),
      hg5, jget_fixEnum_ne g4 "priority" ["high", "medium", "low"] "medium"
        "sentiment" (by decide),
      hg4, jget_fixEnum_ne g3 "category"
        ["billing", "technical", "bundles", "complaints", "general_inquiry", "other"]
        "other" "sentiment" (by decide)]
  have hs4 : jget g9 "category" = jget g4 "category" := by
    rw [hg9, jget_fixBool_ne g8 "category" (by decide),
      hg8, jget_fixList_ne g7 "tags" "category" (by decide),
      hg7, jget_fixList_ne g6 "customer_requests" "category" (by decide),
      hg6, jget_fixList_ne g5 "action_items" "category" (by decide),
      hg5, jget_fixEnum_ne g4 "priority" ["high", "medium", "low"] "medium"
        "category" (by decide)]
  have hs2 : jget g9 "resolution_status" = jget g2 "resolution_status" := by
    rw [hg9, jget_fixBool_ne g8 "resolution_status" (by decide),
      hg8, jget_fixList_ne g7 "tags" "resolution_status" (by decide),
      hg7, jget_fixList_ne g6 "customer_requests" "resolution_status" (by decide),
      hg6, jget_fixList_ne g5 "action_items" "resolution_status" (by decide),
      hg5, jget_fixEnum_ne g4 "priority" ["high", "medium", "low"] "medium"
        "resolution_status" (by decide),
      hg4, jget_fixEnum_ne g3 "category"
        ["billing", "technical", "bundles", "complaints", "general_inquiry", "other"]
        "other" "resolution_status" (by decide),
      hg3, jget_fixEnum_ne g2 "sentiment" ["positive", "neutral", "negative"] "neutral"
        "resolution_status" (by decide)]
  have hs5 : jget g9 "priority" = jget g5 "priority" := by
    rw [hg9, jget_fixBool_ne g8 "priority" (by decide),
      hg8, jget_fixList_ne g7 "tags" "priority" (by decide),
      hg7, jget_fixList_ne g6 "customer_requests" "priority" (by decide),
      hg6, jget_fixList_ne g5 "action_items" "priority" (by decide)]
  have hs1 : jget g9 "summary" = jget g1 "summary" := by
    rw [hg9, jget_fixBool_ne g8 "summary" (by decide),
      hg8, jget_fixList_ne g7 "tags" "summary" (by decide),
      hg7, jget_fixList_ne g6 "customer_requests" "summary" (by decide),
      hg6, jget_fixList_ne g5 "action_items" "summary" (by decide),
      hg5, jget_fixEnum_ne g4 "priority" ["high", "medium", "low"] "medium"
        "summary" (by decide),
      hg4, jget_fixEnum_ne g3 "category"
        ["billing", "technical", "bundles", "complaints", "general_inquiry", "other"]
        "other" "summary" (by decide),
      hg3, jget_fixEnum_ne g2 "sentiment" ["positive", "neutral", "negative"] "neutral"
        "summary" (by decide),
      hg2, jget_fixEnum_ne g1 "resolution_status" ["resolved", "pending", "escalated"]
        "pending" "summary" (by decide)]
  have hs6 : jget g9 "action_items" = jget g6 "action_items" := by
    rw [hg9, jget_fixBool_ne g8 "action_items" (by decide),
      hg8, jget_fixList_ne g7 "tags" "action_items" (by decide),
      hg7, jget_fixList_ne g6 "customer_requests" "action_items" (by decide)]
  have hs7 : jget g9 "customer_requests" = jget g7 "customer_requests" := by
    rw [hg9, jget_fixBool_ne g8 "customer_requests" (by decide),
      hg8, jget_fixList_ne g7 "tags" "customer_requests" (by decide)]
  have hs8 : jget g9 "tags" = jget g8 "tags" := by
    rw [hg9, jget_fixBool_ne g8 "tags" (by decide)]
  simp only [insightValid, Bool.and_eq_true]
  refine ⟨⟨⟨⟨⟨⟨⟨⟨?_, ?_⟩, ?_⟩, ?_⟩, ?_⟩, ?_⟩, ?_⟩, ?_⟩, ?_⟩
  · rw [enumOk_ext g9 g3 "sentiment" ["positive", "neutral", "negative"] hs3, hg3]
    exact enumOk_fixEnum g2 "sentiment" ["positive", "neutral", "negative"] "neutral"
      (by decide)
  · rw [enumOk_ext g9 g4 "category"
      ["billing", "technical", "bundles", "complaints", "general_inquiry", "other"]
      hs4, hg4]
    exact enumOk_fixEnum g3 "category"
      ["billing", "technical", "bundles", "complaints", "general_inquiry", "other"]
      "other" (by decide)
  · rw [enumOk_ext g9 g2 "resolution_status" ["resolved", "pending", "escalated"]
      hs2, hg2]
    exact enumOk_fixEnum g1 "resolution_status" ["resolved", "pending", "escalated"]
      "pending" (by decide)
  · rw [enumOk_ext g9 g5 "priority" ["high", "medium", "low"] hs5, hg5]
    exact enumOk_fixEnum g4 "priority" ["high", "medium", "low"] "medium" (by decide)
  · rw [isListAt_ext g9 g1 "summary" hs1, hg1]
    exact isListAt_fixSummary fs
  · rw [isListAt_ext g9 g6 "action_items" hs6, hg6]
    exact isListAt_fixList g5 "action_items"
  · rw [isListAt_ext g9 g7 "customer_requests" hs7, hg7]
    exact isListAt_fixList g6 "customer_requests"
  · rw [isListAt_ext g9 g8 "tags" hs8, hg8]
    exact isListAt_fixList g7 "tags"
  · rw [hg9]
    exact boolOk_fixBool g8

/-- C6 (amended): the patch implementation
(`ai_service_patch.generate_summary_from_text`) guarantees the claim's
shape for **every** reply: enumeration fields are coerced into their closed
sets (unrecognized resolution status → `"pending"`, sentiment →
`"neutral"`, category → `"other"`, priority → `"medium"`), a non-list
summary is wrapped into a single-element list, but the other list-typed
fields (`action_items`, `customer_requests`, `tags`) are replaced by the
**empty** list rather than wrapped, and a non-boolean
`follow_up_required` becomes `false`; failed, unparsable and non-object
replies get the fully-populated fallback.  The deployed implementation
(`AIService.generate_summary_from_text`) guarantees this only for failed
replies: parsable JSON is returned verbatim, unvalidated. -/
theorem C6_validation_split :
    (∀ r : ExtractReply, insightValid (patchSummary r) = true) ∧
    insightValid serviceFallback = true ∧
    (∀ j : JValue, serviceSummary (.parsed j) = j) := by
  refine ⟨?_, rfl, fun j => rfl⟩
  intro r
  cases r with
  | failure => rfl
  | parsed j =>
    cases j with
    | jobj fs => exact patchValidate_valid fs
    | jnull => rfl
    | jbool b => rfl
    | jnum q => rfl
    | jstr s => rfl
    | jarr xs => rfl

/-! ### Helper lemmas for the truncation claim -/

theorem phoneM1_repl (prev : Option Char) (n : ℕ) :
    phoneM1 prev (List.replicate n 'a') = none := by
  cases n <;> rfl

theorem phoneM2_repl (prev : Option Char) (n : ℕ) :
    phoneM2 prev (List.replicate n 'a') = none := by
  match n with
  | 0 | 1 | 2 | 3 | 4 | 5 | 6 | 7 | 8 | 9 | 10 => rfl
  | m + 11 => rfl

theorem phoneM3_repl (prev : Option Char) (n : ℕ) :
    phoneM3 prev (List.replicate n 'a') = none := by
  match n with
  | 0 | 1 | 2 | 3 | 4 | 5 | 6 | 7 | 8 | 9 | 10 | 11 => rfl
  | m + 12 => rfl

theorem amountM1_repl (prev : Option Char) (n : ℕ) :
    amountM1 prev (List.replicate n 'a') = none := by
  cases n <;> rfl

theorem amountM2_repl (prev : Option Char) (n : ℕ) :
    amountM2 prev (List.replicate n 'a') = none := by
  cases n <;> rfl

theorem amountM3_repl (prev : Option Char) (n : ℕ) :
    amountM3 prev (List.replicate n 'a') = none := by
  cases n <;> rfl

theorem nameM3_repl (prev : Option Char) (n : ℕ) :
    nameM3 prev (List.replicate n 'a') = none := by
  cases n <;> rfl

theorem accountM1_repl (prev : Option Char) (n : ℕ) :
    accountM1 prev (List.replicate n 'a') = none := by
  cases n <;> rfl

/-- `re.sub` is the identity on a text where the pattern never matches. -/
theorem reSubGo_repl (m : Option Char → List Char → Option Nat) (repl : List Char)
    (hm : ∀ prev n, m prev (List.replicate n 'a') = none) :
    ∀ (fuel : ℕ) (prev : Option Char) (n : ℕ),
      reSubGo m repl fuel prev (List.replicate n 'a') = List.replicate n 'a' := by
  intro fuel
  induction fuel with
  | zero => intro prev n; cases n <;> rfl
  | succ f ihf =>
    intro prev n
    cases n with
    | zero => rfl
    | succ k =>
      have hm' : m prev ('a' :: List.replicate k 'a') = none := by
        have h := hm prev (k + 1)
        rwa [List.replicate_succ] at h
      rw [List.replicate_succ]
      simp only [reSubGo, hm']
      rw [ihf (some 'a') k]

theorem reSub_repl (m : Option Char → List Char → Option Nat) (repl : List Char)
    (hm : ∀ prev n, m prev (List.replicate n 'a') = none) (n : ℕ) :
    reSub m repl (List.replicate n 'a') = List.replicate n 'a' :=
  reSubGo_repl m repl hm _ none n

theorem findIterGo_repl (m : Option Char → List Char → Option Nat)
    (hm : ∀ prev n, m prev (List.replicate n 'a') = none) :
    ∀ (fuel : ℕ) (prev : Option Char) (n pos : ℕ),
      findIterGo m fuel prev (List.replicate n 'a') pos = [] := by
  intro fuel
  induction fuel with
  | zero => intro prev n pos; cases n <;> rfl
  | succ f ihf =>
    intro prev n pos
    cases n with
    | zero => rfl
    | succ k =>
      have hm' : m prev ('a' :: List.replicate k 'a') = none := by
        have h := hm prev (k + 1)
        rwa [List.replicate_succ] at h
      rw [List.replicate_succ]
      simp only [findIterGo, hm']
      rw [ihf (some 'a') k]

theorem maskNamesRev_repl (n : ℕ) :
    maskNamesRev nameM3 (List.replicate n 'a') = List.replicate n 'a' := by
  unfold maskNamesRev findIter
  rw [findIterGo_repl nameM3 nameM3_repl]
  rfl

/-- `AIService.sanitize_transcript` leaves a text of `n` letters `a`
unchanged: no pattern matches it. -/
theorem sanitizeAI_replicate (n : ℕ) :
    sanitizeAI (List.replicate n 'a') = List.replicate n 'a' := by
  simp only [sanitizeAI]
  rw [reSub_repl phoneM1 _ phoneM1_repl, reSub_repl phoneM2 _ phoneM2_repl,
    reSub_repl phoneM3 _ phoneM3_repl, reSub_repl amountM1 _ amountM1_repl,
    reSub_repl amountM2 _ amountM2_repl, reSub_repl amountM3 _ amountM3_repl,
    maskNamesRev_repl, reSub_repl accountM1 _ accountM1_repl]

/-- C7 counterexample: the deployed extractor submits a transcript of 8001
characters unchanged — no truncation, no marker — while the claim requires
any text longer than the 8000-character maximum to be cut and marked. -/
theorem C7_counterexample :
    serviceSubmitted (List.replicate 8001 'a') = List.replicate 8001 'a' ∧
    8000 < (List.replicate 8001 'a').length ∧
    serviceSubmitted (List.replicate 8001 'a') ≠
      (List.replicate 8001 'a').take 8000 ++ truncMarker := by
  have hid : serviceSubmitted (List.replicate 8001 'a') = List.replicate 8001 'a' :=
    sanitizeAI_replicate 8001
  refine ⟨hid, by rw [List.length_replicate]; omega, ?_⟩
  rw [hid]
  intro heq
  have hlen := congrArg List.length heq
  rw [List.length_append, List.length_take, List.length_replicate,
    show truncMarker.length = 15 from rfl] at hlen
  omega

/-- C7 (amended): the truncation policy lives in the patch file
(`ai_service_patch.py`), not in the deployed service: `patchSubmitted`
passes any text of at most 8000 characters through unchanged, and cuts a
longer text to exactly its first 8000 characters plus the fixed
`"... [truncated]"` marker (total length 8015) — a deterministic function
of the input, with no retry path.  The deployed
`AIService.generate_summary_from_text` submits the sanitized transcript at
any length. -/
theorem C7_truncation_policy (t : List Char) :
    (t.length ≤ 8000 → patchSubmitted t = t) ∧
    (8000 < t.length →
      patchSubmitted t = t.take 8000 ++ truncMarker ∧
      (patchSubmitted t).length = 8015) := by
  constructor
  · intro h
    unfold patchSubmitted
    rw [if_neg (by omega)]
  · intro h
    have he : patchSubmitted t = t.take 8000 ++ truncMarker := by
      unfold patchSubmitted
      rw [if_pos h]
    refine ⟨he, ?_⟩
    rw [he, List.length_append, List.length_take,
      show truncMarker.length = 15 from rfl]
    omega

/-- Witness for C7: a one-character transcript is submitted unchanged by
the patch. -/
theorem C7_truncation_policy_witness :
    patchSubmitted ['x'] = ['x'] :=
  (C7_truncation_policy ['x']).1 (by decide)

/-- Witness for C5: a concrete waveform of 1024 samples with three RMS
frames satisfies the librosa length contract and the theorem applies. -/
theorem C5_segment_bounds_witness :
    ([(1 : ℚ), 5, 5].length = 1 + 1024 / 512) ∧ (0 < 1024) ∧
    (∃ A, analyzeAudioProperties 1024 [(1 : ℚ), 5, 5] 512 16000 = some A ∧
      (0 ≤ A.silenceRatio ∧ A.silenceRatio ≤ 1) ∧
      List.Chain' (fun p q : ℚ × ℚ => p.2 ≤ q.1) A.speechSegments ∧
      (∀ p ∈ A.speechSegments,
        0 ≤ p.1 ∧ p.1 ≤ p.2 ∧ p.2 ≤ A.duration ∧
          ((1 : ℚ)/10 < p.2 - p.1 ∨
            p.2 = ((([(1 : ℚ), 5, 5].length - 1) * 512 : ℕ) : ℚ) / 16000))) :=
  ⟨by decide, by decide, C5_segment_bounds 1024 [(1 : ℚ), 5, 5] (by decide) (by decide)⟩

end CallRec
